import Mathlib

/-!
Shallow Lean embedding of the core of the YouStats repository
(`src/youstats/channel_analyzer.py`, `src/youstats/youstats_window.py`,
`src/youstats/data_visualizer_posts.py`, `src/youstats/data_visualizer.py`).

Python strings are modelled as `List Char` for the text-normalization
functions and as `String` where only whole values are compared.  Python
exceptions are modelled with `Option`/`Except`/`Option PyError` result
channels.  Python floats only occur in `_convert_subs_or_videos`
(`threshold`), where the repeated division by 10 is modelled with exact
rationals; the two agree while the threshold stays a power of ten that is
at least one, which the theorems below enforce through digit-count bounds.
-/

namespace YouStats

/-- Numeric value of a decimal digit character. -/
def digitVal (c : Char) : Nat := c.toNat - 48

/-- Value of a digit string read left to right. -/
def digitsToNat (s : List Char) : Nat := s.foldl (fun a c => 10 * a + digitVal c) 0

/-- Model of Python `int(s)` restricted to the plain unsigned digit strings
that reach it in this repository; `none` models the `ValueError` raised on
any other text. -/
def pyInt (s : List Char) : Option Nat :=
  if s.isEmpty then none
  else if s.all Char.isDigit then some (digitsToNat s) else none

/-- Model of Python `s.replace(c, '')` for a single-character pattern:
every occurrence of the character is removed. -/
def pyRemoveChar (c : Char) (s : List Char) : List Char := s.filter (fun x => x ≠ c)

/-- Model of Python `c in s` for a single character. -/
def pyContainsChar (c : Char) (s : List Char) : Bool := s.contains c

/-- Helper for `pySplitWs`: accumulates the current word (reversed). -/
def splitWsAux : List Char → List Char → List (List Char)
  | [], cur => if cur.isEmpty then [] else [cur.reverse]
  | c :: t, cur =>
    if c.isWhitespace then
      if cur.isEmpty then splitWsAux t [] else cur.reverse :: splitWsAux t []
    else splitWsAux t (c :: cur)

/-- Model of Python `s.split()` with no argument: split on runs of
whitespace, discarding empty words. -/
def pySplitWs (s : List Char) : List (List Char) := splitWsAux s []

/-- Embedding of `ChannelAnalyzer._convert_subs_or_videos`
(channel_analyzer.py:183-218).  The float `threshold`, which the source
halves down by repeated `/= 10`, is modelled as an exact rational; the
final `int(...)` truncation is `Int.floor` (the value is non-negative).
`none` models the `ValueError`/`IndexError` escaping from `int(...)` /
`split()[0]` on malformed text. -/
def convert_subs_or_videos (value : List Char) : Option Int :=
  let value_no_point := pyRemoveChar '.' value
  if pyContainsChar 'K' value_no_point then
    let value_without_k := pyRemoveChar 'K' value_no_point
    let num_digits := value_without_k.length - 1
    let threshold : ℚ := 100000 / 10 ^ num_digits
    (pyInt value_without_k).map (fun n : ℕ => ⌊(n : ℚ) * threshold⌋)
  else if pyContainsChar 'M' value_no_point then
    let value_without_m := pyRemoveChar 'M' value_no_point
    let num_digits := value_without_m.length - 1
    let threshold : ℚ := 1000000 / 10 ^ num_digits
    (pyInt value_without_m).map (fun n : ℕ => ⌊(n : ℚ) * threshold⌋)
  else
    match pySplitWs value_no_point with
    | [] => none
    | w :: _ => (pyInt w).map Int.ofNat

/-- Embedding of `ChannelAnalyzer._format_views` (channel_analyzer.py:220-228):
`int(views.split()[0].replace(',', ''))`; `none` models the
`IndexError`/`ValueError` on malformed text. -/
def format_views (views : List Char) : Option Int :=
  match pySplitWs views with
  | [] => none
  | w :: _ => (pyInt (pyRemoveChar ',' w)).map Int.ofNat

/-- Boolean prefix test on character lists (Python `str.startswith`). -/
def leadsWith : List Char → List Char → Bool
  | [], _ => true
  | _ :: _, [] => false
  | p :: ps, c :: cs => (p == c) && leadsWith ps cs

/-- Case-insensitive prefix test; CPython `strptime` compiles the month-name
alternation with `re.IGNORECASE`. -/
def leadsWithCI : List Char → List Char → Bool
  | [], _ => true
  | _ :: _, [] => false
  | p :: ps, c :: cs => (p.toLower == c.toLower) && leadsWithCI ps cs

/-- Model of Python `pat in s` (substring containment). -/
def containsSub (pat : List Char) : List Char → Bool
  | [] => pat.isEmpty
  | c :: t => leadsWith pat (c :: t) || containsSub pat t

/-- Fuel-driven helper for `replaceSub`; the fuel only serves structural
recursion and is irrelevant once it is at least the length of the text. -/
def replaceSubAux (pat : List Char) : Nat → List Char → List Char
  | _, [] => []
  | 0, s => s
  | fuel + 1, c :: t =>
    if ¬pat.isEmpty ∧ leadsWith pat (c :: t) then
      replaceSubAux pat fuel (List.drop (pat.length - 1) t)
    else c :: replaceSubAux pat fuel t

/-- Model of Python `s.replace(pat, '')`: every (left-to-right,
non-overlapping) occurrence of `pat` is removed. -/
def replaceSub (pat s : List Char) : List Char := replaceSubAux pat s.length s

/-- Model of Python `s.strip()`: leading and trailing whitespace removed. -/
def pyStrip (s : List Char) : List Char :=
  ((s.dropWhile Char.isWhitespace).reverse.dropWhile Char.isWhitespace).reverse

/-- Character list of the literal `'Premiered'`. -/
def premieredChars : List Char := ['P', 'r', 'e', 'm', 'i', 'e', 'r', 'e', 'd']

/-- Character list of the literal `'Joined'`. -/
def joinedChars : List Char := ['J', 'o', 'i', 'n', 'e', 'd']

/-- Embedding of the prefix-stripping step of `ChannelAnalyzer._convert_date`
(channel_analyzer.py:238-239): if `'Premiered' in date or 'Joined' in date`,
replace both with `''` and strip whitespace. -/
def stripPremieredJoined (date : List Char) : List Char :=
  if containsSub premieredChars date || containsSub joinedChars date then
    pyStrip (replaceSub joinedChars (replaceSub premieredChars date))
  else date

/-- English month abbreviations, in calendar order, as used by
`strptime`'s `%b` directive in the C locale. -/
def monthAbbrevs : List (List Char) :=
  [['J', 'a', 'n'], ['F', 'e', 'b'], ['M', 'a', 'r'], ['A', 'p', 'r'],
   ['M', 'a', 'y'], ['J', 'u', 'n'], ['J', 'u', 'l'], ['A', 'u', 'g'],
   ['S', 'e', 'p'], ['O', 'c', 't'], ['N', 'o', 'v'], ['D', 'e', 'c']]

/-- Helper for `matchMonth`: try each abbreviation in order, numbering from
`i`. -/
def matchMonthAux : Nat → List (List Char) → List Char → Option (Nat × List Char)
  | _, [], _ => none
  | i, a :: rest, s =>
    if leadsWithCI a s then some (i, s.drop a.length) else matchMonthAux (i + 1) rest s

/-- Model of `strptime`'s `%b`: case-insensitive match of one month
abbreviation at the start of the text, returning the month number (1-12)
and the remaining text. -/
def matchMonth (s : List Char) : Option (Nat × List Char) := matchMonthAux 1 monthAbbrevs s

/-- Model of a literal whitespace in a `strptime` format (compiled to
`\s+`): requires at least one whitespace character and consumes the run. -/
def skipWs1 : List Char → Option (List Char)
  | [] => none
  | c :: t => if c.isWhitespace then some (t.dropWhile Char.isWhitespace) else none

/-- Model of `strptime`'s `%d` (pattern `3[01]|[1-2]\d|0[1-9]|[1-9]`):
a two-digit day 01-31, or a single non-zero digit. -/
def parseDay : List Char → Option (Nat × List Char)
  | c1 :: c2 :: rest =>
    if c1.isDigit && c2.isDigit then
      let v := 10 * digitVal c1 + digitVal c2
      if 1 ≤ v ∧ v ≤ 31 then some (v, rest) else none
    else if c1.isDigit && 1 ≤ digitVal c1 then some (digitVal c1, c2 :: rest)
    else none
  | [c1] => if c1.isDigit && 1 ≤ digitVal c1 then some (digitVal c1, []) else none
  | [] => none

/-- Model of the literal `','` in the `strptime` format. -/
def expectComma : List Char → Option (List Char)
  | [] => none
  | c :: t => if c = ',' then some t else none

/-- Model of `strptime`'s `%Y` (pattern `\d\d\d\d`) at the end of the
format: exactly four digits and then the end of the text (`strptime`
rejects unconverted trailing data). -/
def parseYear4End : List Char → Option Nat
  | [c1, c2, c3, c4] =>
    if c1.isDigit && c2.isDigit && c3.isDigit && c4.isDigit then
      some (1000 * digitVal c1 + 100 * digitVal c2 + 10 * digitVal c3 + digitVal c4)
    else none
  | _ => none

/-- Proleptic-Gregorian leap-year rule used by Python `datetime`. -/
def isLeapYear (y : Nat) : Bool := (y % 4 == 0 && y % 100 != 0) || y % 400 == 0

/-- Number of days in a month, as validated by the `datetime` constructor. -/
def daysInMonth (m y : Nat) : Nat :=
  if m = 2 then (if isLeapYear y then 29 else 28)
  else if m = 4 ∨ m = 6 ∨ m = 9 ∨ m = 11 then 30
  else 31

/-- Model of `datetime.strptime(date, '%b %d, %Y')`: month abbreviation,
whitespace, day, comma, whitespace, four-digit year, end of input; the
resulting day is validated against the month length. `none` models the
`ValueError`. -/
def parseDateCore (s : List Char) : Option (Nat × Nat × Nat) :=
  match matchMonth s with
  | none => none
  | some (m, r1) =>
    match skipWs1 r1 with
    | none => none
    | some r2 =>
      match parseDay r2 with
      | none => none
      | some (d, r3) =>
        match expectComma r3 with
        | none => none
        | some r4 =>
          match skipWs1 r4 with
          | none => none
          | some r5 =>
            match parseYear4End r5 with
            | none => none
            | some y => if d ≤ daysInMonth m y then some (m, d, y) else none

/-- Two-digit zero-padded rendering (`strftime`'s `%m` / `%d`). -/
def pad2 (n : Nat) : List Char :=
  if n < 10 then ['0', Char.ofNat (48 + n)]
  else [Char.ofNat (48 + n / 10), Char.ofNat (48 + n % 10)]

/-- Fuel-driven helper for `natDigits`; the fuel is irrelevant once it is
positive and at least the number of digits. -/
def natDigitsAux : Nat → Nat → List Char
  | 0, _ => []
  | fuel + 1, n =>
    if n < 10 then [Char.ofNat (48 + n)]
    else natDigitsAux fuel (n / 10) ++ [Char.ofNat (48 + n % 10)]

/-- Decimal digit characters of a natural number, most significant first
(`strftime`'s `%Y` on glibc: no zero padding). -/
def natDigits (n : Nat) : List Char := natDigitsAux (n + 1) n

/-- Model of `datetime.strftime('%m/%d/%Y')`. -/
def strftimeDate (m d y : Nat) : List Char :=
  pad2 m ++ '/' :: (pad2 d ++ '/' :: natDigits y)

/-- Embedding of `ChannelAnalyzer._convert_date`
(channel_analyzer.py:230-242): optional `Premiered`/`Joined` stripping,
`strptime('%b %d, %Y')`, re-rendered as `%m/%d/%Y`.  `none` models the
`ValueError` (the spec's `MalformedDateError`). -/
def convert_date (date : List Char) : Option (List Char) :=
  (parseDateCore (stripPremieredJoined date)).map (fun t => strftimeDate t.1 t.2.1 t.2.2)


/-!  Harvesting pipeline (`ChannelAnalyzer.harvest_data` and the private
steps it sequences, channel_analyzer.py:244-391).  The selenium driver is
an external collaborator; a `ScrapeEnv` supplies the raw texts it would
return.  Python exceptions are threaded as `Option PyError`: a raised
exception aborts the remaining steps but the already-mutated attributes
survive on the analyzer object, and the `finally` clause closes the
driver on every path. -/

/-- Python exception classes that can escape the modelled steps. -/
inductive PyError where
  | valueErr
  | keyErr
  | webDriverErr
  | timeoutErr
deriving DecidableEq, Repr

/-- One entry of `ChannelAnalyzer._general_channel_info`
(channel_analyzer.py:288-294). -/
structure GeneralInfo where
  headerName : List Char
  subscribersNum : Int
  videosNum : Int
  joinDate : List Char
  totalViews : Int
deriving DecidableEq, Repr

/-- One entry of `ChannelAnalyzer._all_videos_details`
(channel_analyzer.py:335-341). -/
structure VideoDetails where
  title : List Char
  views : Int
  date : List Char
  description : List Char
  link : List Char
deriving DecidableEq, Repr

/-- Raw header texts the scraping collaborator returns to
`_get_general_info`; `none` for the whole record models a
`NoSuchElementException` while locating the header elements. -/
structure HeaderRaw where
  headerName : List Char
  subsText : List Char
  videosText : List Char
  joinDateText : List Char
  totalViewsText : List Char
deriving DecidableEq, Repr

/-- Raw per-video texts the collaborator returns to `_find_videos_info`;
`none` models a `NoSuchElementException` on that video page. -/
structure VideoRaw where
  title : List Char
  viewsText : List Char
  dateText : List Char
  description : List Char
deriving DecidableEq, Repr

/-- The scraping collaborator's behaviour for one harvest run. -/
structure ScrapeEnv where
  openFails : Bool
  consentFails : Bool
  headerTexts : Option HeaderRaw
  links : List (List Char)
  videoRaw : List Char → Option VideoRaw

/-- Mutable attributes of a `ChannelAnalyzer` instance touched by
`harvest_data`.  The three dataframe attributes hold the row lists of the
corresponding pandas frames; a dataframe built from an empty record list
has no columns, which is what makes `df['date']` raise.  `statsDf` keeps
only the fact that `describe()` succeeded. -/
structure HarvestState where
  generalChannelInfo : List GeneralInfo
  linksOfAllVideos : List (List Char)
  allVideosDetails : List VideoDetails
  yearsOfActivity : List (List Char)
  generalDf : Option (List GeneralInfo)
  videosDf : Option (List VideoDetails)
  statsDf : Option Unit
  driverOpen : Bool
deriving Repr

/-- Attribute values set by `ChannelAnalyzer.__init__`
(channel_analyzer.py:57-73): empty accumulators, class-level dataframe
defaults `None`, an open driver. -/
def initState : HarvestState :=
  { generalChannelInfo := []
    linksOfAllVideos := []
    allVideosDetails := []
    yearsOfActivity := []
    generalDf := none
    videosDf := none
    statsDf := none
    driverOpen := true }

/-- Converts an `Option` result of a text-normalization helper into the
`ValueError` it raises on `none`. -/
def toVE {α : Type} : Option α → Except PyError α
  | none => .error .valueErr
  | some a => .ok a

/-- Embedding of `ChannelAnalyzer._open_url` (channel_analyzer.py:244-248):
`driver.get` either succeeds or raises a `WebDriverException`. -/
def open_url (env : ScrapeEnv) (st : HarvestState) : Except PyError HarvestState :=
  if env.openFails then .error .webDriverErr else .ok st

/-- Embedding of `ChannelAnalyzer._access_youtube`
(channel_analyzer.py:250-256): the consent-button wait either succeeds or
raises a `TimeoutException`; there is no handler around it. -/
def access_youtube (env : ScrapeEnv) (st : HarvestState) : Except PyError HarvestState :=
  if env.consentFails then .error .timeoutErr else .ok st

/-- Embedding of `ChannelAnalyzer._get_general_info`
(channel_analyzer.py:272-298).  Only `NoSuchElementException` is caught
(the record is then simply not appended); a `ValueError` raised by
`_convert_subs_or_videos`, `_convert_date` or `_format_views` propagates. -/
def get_general_info (env : ScrapeEnv) (st : HarvestState) : Except PyError HarvestState :=
  match env.headerTexts with
  | none => .ok st
  | some h => do
    let subs ← toVE (convert_subs_or_videos h.subsText)
    let vids ← toVE (convert_subs_or_videos h.videosText)
    let jd ← toVE (convert_date h.joinDateText)
    let tv ← toVE (format_views h.totalViewsText)
    .ok { st with generalChannelInfo :=
            st.generalChannelInfo ++
              [{ headerName := pyRemoveChar ' ' h.headerName
                 subscribersNum := subs
                 videosNum := vids
                 joinDate := jd
                 totalViews := tv }] }

/-- Embedding of `ChannelAnalyzer._find_all_videos_links`
(channel_analyzer.py:300-315): appends whatever links the collaborator's
scroll-and-collect loop discovered (a `NoSuchElementException` there is
caught and only truncates the list, which the environment already
reflects). -/
def find_all_videos_links (env : ScrapeEnv) (st : HarvestState) : HarvestState :=
  { st with linksOfAllVideos := st.linksOfAllVideos ++ env.links }

/-- Loop body accumulator of `_find_videos_info`. -/
def find_videos_info_go (env : ScrapeEnv) :
    List (List Char) → List VideoDetails → Except PyError (List VideoDetails)
  | [], acc => .ok acc
  | l :: t, acc =>
    match env.videoRaw l with
    | none => find_videos_info_go env t acc
    | some v => do
      let views ← toVE (format_views v.viewsText)
      let date ← toVE (convert_date v.dateText)
      find_videos_info_go env t
        (acc ++ [{ title := v.title, views := views, date := date,
                   description := v.description, link := l }])

/-- Embedding of `ChannelAnalyzer._find_videos_info`
(channel_analyzer.py:317-345).  Per-video `NoSuchElementException` is
caught and the video skipped; a `ValueError` from `_format_views` or
`_convert_date` propagates and aborts the remaining videos. -/
def find_videos_info (env : ScrapeEnv) (st : HarvestState) : Except PyError HarvestState :=
  (find_videos_info_go env st.linksOfAllVideos []).map
    (fun details => { st with allVideosDetails := st.allVideosDetails ++ details })

/-- Embedding of `ChannelAnalyzer._update_dataframes`
(channel_analyzer.py:347-357).  The two frame assignments always succeed;
`describe()` raises (`Cannot describe a DataFrame without columns`) when
the videos record list is empty, and that exception is caught by the
step's own `except Exception`, leaving `_videos_statistic_dataframe`
untouched. -/
def update_dataframes (st : HarvestState) : HarvestState :=
  { st with
    generalDf := some st.generalChannelInfo
    videosDf := some st.allVideosDetails
    statsDf := if st.allVideosDetails.isEmpty then st.statsDf else some () }

/-- Helper for `pyUniqueFirst`, carrying the values already seen. -/
def pyUniqueAux {α : Type} [DecidableEq α] : List α → List α → List α
  | [], _ => []
  | a :: t, seen => if a ∈ seen then pyUniqueAux t seen else a :: pyUniqueAux t (seen ++ [a])

/-- First-occurrence deduplication, the order `pandas.Series.unique`
returns values in. -/
def pyUniqueFirst {α : Type} [DecidableEq α] (l : List α) : List α := pyUniqueAux l []

/-- Lexicographic string order used by Python `sorted` on `str`. -/
def charListLe (a b : List Char) : Prop := String.mk a ≤ String.mk b

instance : DecidableRel charListLe := fun a b => by
  unfold charListLe
  infer_instance

/-- Embedding of `ChannelAnalyzer._extract_years_of_activity`
(channel_analyzer.py:359-365): a no-op when the videos dataframe is still
`None`; otherwise `df['date']` raises `KeyError` when the frame was built
from zero records (no columns), and else stores the sorted distinct
4-character date suffixes. -/
def extract_years_of_activity (st : HarvestState) : Except PyError HarvestState :=
  match st.videosDf with
  | none => .ok st
  | some rows =>
    if rows.isEmpty then .error .keyErr
    else .ok { st with yearsOfActivity :=
        (List.insertionSort charListLe
          (pyUniqueFirst (rows.map (fun r => r.date.drop (r.date.length - 4))))) }

/-- Sequencing of one statement inside the `try` block of `harvest_data`:
once an exception is pending, later statements do not run; the state
mutations already performed survive on the analyzer object. -/
def pyThen (x : HarvestState × Option PyError)
    (f : HarvestState → Except PyError HarvestState) : HarvestState × Option PyError :=
  match x with
  | (st, some e) => (st, some e)
  | (st, none) =>
    match f st with
    | .ok st' => (st', none)
    | .error e => (st, some e)

/-- Embedding of `ChannelAnalyzer.harvest_data`
(channel_analyzer.py:367-391): the seven steps run sequentially inside
`try`, and the `finally` clause closes the driver on every exit path; the
exception, if any, is re-raised afterwards (the second component). -/
def harvest_data (env : ScrapeEnv) : HarvestState × Option PyError :=
  let body :=
    pyThen (pyThen (pyThen (pyThen (pyThen (pyThen (pyThen
      ((initState, none)) (open_url env)) (access_youtube env)) (get_general_info env))
        (fun st => .ok (find_all_videos_links env st))) (find_videos_info env))
      (fun st => .ok (update_dataframes st))) extract_years_of_activity
  ({ body.1 with driverOpen := false }, body.2)

/-- Error raised by `analyze_channels` when a channel name is missing
(youstats_window.py:45-56, `MissingChannelNamesError`; the spec's
`MissingChannelIdentifierError`). -/
inductive AnalyzeError where
  | missingChannelNames
deriving DecidableEq, Repr

/-- Embedding of `analyze_channels` (youstats_window.py:59-80), the spec's
`ComparisonCoordinator.run`.  The harvesting collaborator (`analyze_channel`,
which constructs a `ChannelAnalyzer` and runs `harvest_data`) is passed as
a function; Python's `not s` on a string is `s == ""`.  The emptiness
check precedes every use of the collaborator. -/
def analyze_channels {α : Type} (analyze_channel : String → α)
    (pivot_channel_name targeted_channel_name : String) : Except AnalyzeError (α × α) :=
  if pivot_channel_name = "" ∨ targeted_channel_name = "" then
    .error .missingChannelNames
  else
    .ok (analyze_channel pivot_channel_name, analyze_channel targeted_channel_name)

/-!  Time-series aggregation (`DataVisualizerPosts._get_posting_per_year`,
data_visualizer_posts.py:47-67) and the common-years intersection
(`YouStatsWindow.find_common_years`, youstats_window.py:427-444).  Python
dicts are modelled as insertion-ordered association lists. -/

/-- The `MONTHS_MAPPING` dict of data_visualizer.py:3-7. -/
def MONTHS_MAPPING : List (String × String) :=
  [("01", "January"), ("02", "February"), ("03", "March"), ("04", "April"),
   ("05", "May"), ("06", "June"), ("07", "July"), ("08", "August"),
   ("09", "September"), ("10", "October"), ("11", "November"), ("12", "December")]

/-- The twelve canonical month names in calendar order
(`MONTHS_MAPPING.values()`). -/
def monthNames : List String := MONTHS_MAPPING.map Prod.snd

/-- A year's inner dict as first created:
`{month: 0 for month in MONTHS_MAPPING.values()}`. -/
def initMonths : List (String × Nat) := monthNames.map (fun m => (m, 0))

/-- Python `date[-4:]` on a string. -/
def pyLast4 (s : String) : String := String.mk (s.toList.drop (s.toList.length - 4))

/-- Python `date[0:2]` on a string. -/
def pyFirst2 (s : String) : String := String.mk (s.toList.take 2)

/-- Python `d[k] += 1` on an insertion-ordered dict: bump the value of the
first entry with key `k`; `none` models the `KeyError` when `k` is
absent. -/
def bumpKey (k : String) : List (String × Nat) → Option (List (String × Nat))
  | [] => none
  | (k', v) :: t =>
    if k' = k then some ((k', v + 1) :: t)
    else (bumpKey k t).map (fun t' => (k', v) :: t')

/-- The year/month histogram: a dict from year label to a dict from month
name to a count, both in insertion order. -/
abbrev Hist : Type := List (String × List (String × Nat))

/-- Python `yearly_data[year][month] += 1` on the outer dict: find the
year entry and bump the month inside it; `none` models the `KeyError`
raised when the month key is absent (in particular when
`MONTHS_MAPPING.get` returned `None`). -/
def bumpYearMonth (y : String) (m : Option String) : Hist → Option Hist
  | [] => none
  | (y', inner) :: t =>
    if y' = y then
      match m with
      | none => none
      | some mn => (bumpKey mn inner).map (fun inner' => (y', inner') :: t)
    else (bumpYearMonth y m t).map (fun t' => (y', inner) :: t')

/-- Loop body of `_get_posting_per_year` for one date: compute the year
slice and the mapped month, insert the zero-filled year dict on first
encounter, then increment. -/
def postingStep (acc : Hist) (date : String) : Option Hist :=
  let year := pyLast4 date
  let month := MONTHS_MAPPING.lookup (pyFirst2 date)
  let acc1 : Hist :=
    if (List.lookup year acc).isSome then acc else acc ++ [(year, initMonths)]
  bumpYearMonth year month acc1

/-- Folds `postingStep` over the remaining dates. -/
def postingFold : List String → Hist → Option Hist
  | [], acc => some acc
  | d :: ds, acc =>
    match postingStep acc d with
    | none => none
    | some acc' => postingFold ds acc'

/-- Embedding of `DataVisualizerPosts._get_posting_per_year`
(data_visualizer_posts.py:47-67); `none` models the `KeyError` raised
when a date's two-character prefix is not a `MONTHS_MAPPING` key. -/
def get_posting_per_year (posting_dates : List String) : Option Hist :=
  postingFold posting_dates []

/-- Embedding of `YouStatsWindow.find_common_years`
(youstats_window.py:427-444): `list(set(yc_years) & set(tc_years))`
followed by `.sort()` — the ascending sorted, duplicate-free enumeration
of the intersection. -/
def find_common_years (yc_years tc_years : List String) : List String :=
  List.insertionSort (· ≤ ·) ((yc_years.filter (fun y => y ∈ tc_years)).dedup)

/-- The spec's `sortedUnique`: ascending sorted, duplicate-free version of
a list. -/
def sortedUnique (l : List String) : List String :=
  List.insertionSort (· ≤ ·) l.dedup

/-!  Dataframe properties and setters
(channel_analyzer.py:75-181).  Pandas dataframes are mutable heap
objects; the heap is modelled as a list of dataframe values indexed by
allocation order, and `.copy()` as a fresh allocation holding the same
value.  A dataframe value is its list of rows (cell lists). -/

/-- A pandas dataframe value: rows of integer cells. -/
abbrev DFData : Type := List (List Int)

/-- The pandas heap: allocated dataframe values, indexed by position. -/
structure PdHeap where
  store : List DFData

/-- Value of a dataframe reference. -/
def dfAt (h : PdHeap) (r : Nat) : DFData := h.store.getD r []

/-- Model of `df.copy()`: allocate a fresh object holding the same value. -/
def dfCopy (h : PdHeap) (r : Nat) : Nat × PdHeap :=
  (h.store.length, ⟨h.store ++ [dfAt h r]⟩)

/-- In-place mutation of the dataframe behind a reference. -/
def dfWrite (h : PdHeap) (r : Nat) (v : DFData) : PdHeap :=
  ⟨h.store.set r v⟩

/-- The analyzer's three private dataframe attributes as heap references
(`None` before `_update_dataframes` ran). -/
structure AnalyzerRefs where
  generalInfoRef : Option Nat
  videosInfoRef : Option Nat
  videosStatRef : Option Nat

/-- Exceptions raised by the properties and setters
(channel_analyzer.py:20-35). -/
inductive AttrError where
  | channelIsNone
  | dataFrameEmpty
  | dataFrameAssignment
deriving DecidableEq, Repr

/-- Embedding of the `general_info_dataframe` property
(channel_analyzer.py:87-97): raises `DataFrameEmpty` when the attribute
is `None`, otherwise returns `self._general_info_dataframe.copy()`. -/
def general_info_dataframe (a : AnalyzerRefs) (h : PdHeap) :
    Except AttrError (Nat × PdHeap) :=
  match a.generalInfoRef with
  | none => .error .dataFrameEmpty
  | some r => .ok (dfCopy h r)

/-- Embedding of the `videos_info_dataframe` property
(channel_analyzer.py:99-109). -/
def videos_info_dataframe (a : AnalyzerRefs) (h : PdHeap) :
    Except AttrError (Nat × PdHeap) :=
  match a.videosInfoRef with
  | none => .error .dataFrameEmpty
  | some r => .ok (dfCopy h r)

/-- Embedding of the `videos_statistic_dataframe` property
(channel_analyzer.py:111-121). -/
def videos_statistic_dataframe (a : AnalyzerRefs) (h : PdHeap) :
    Except AttrError (Nat × PdHeap) :=
  match a.videosStatRef with
  | none => .error .dataFrameEmpty
  | some r => .ok (dfCopy h r)

/-- A Python value assigned through one of the modelled setters: `None`, a
string, a pandas DataFrame, or any other object. -/
inductive PyVal where
  | noneVal
  | strVal (s : String)
  | dataFrame (df : DFData)
  | otherVal (tag : Nat)
deriving DecidableEq, Repr

/-- Python `isinstance(v, pd.DataFrame)`. -/
def isDataFrame : PyVal → Bool
  | .dataFrame _ => true
  | _ => false

/-- The attributes written by the modelled setters. -/
structure AnalyzerAttrs where
  channelName : PyVal
  generalInfoDf : PyVal
  videosInfoDf : PyVal
  videosStatDf : PyVal
deriving DecidableEq, Repr

/-- Embedding of the `channel_name` setter (channel_analyzer.py:123-136):
raises `ChannelIsNone` on `None` — before any write — and assigns
otherwise. -/
def channel_name_setter (st : AnalyzerAttrs) (v : PyVal) :
    AnalyzerAttrs × Option AttrError :=
  if v = .noneVal then (st, some .channelIsNone)
  else ({ st with channelName := v }, none)

/-- Embedding of the `general_info_dataframe` setter
(channel_analyzer.py:138-151): raises `DataFrameAssignment` unless the
value is a DataFrame — before any write — and assigns otherwise. -/
def general_info_dataframe_setter (st : AnalyzerAttrs) (v : PyVal) :
    AnalyzerAttrs × Option AttrError :=
  if isDataFrame v then ({ st with generalInfoDf := v }, none)
  else (st, some .dataFrameAssignment)

/-- Embedding of the `videos_info_dataframe` setter
(channel_analyzer.py:153-166). -/
def videos_info_dataframe_setter (st : AnalyzerAttrs) (v : PyVal) :
    AnalyzerAttrs × Option AttrError :=
  if isDataFrame v then ({ st with videosInfoDf := v }, none)
  else (st, some .dataFrameAssignment)

/-- Embedding of the `videos_statistic_dataframe` setter
(channel_analyzer.py:168-181). -/
def videos_statistic_dataframe_setter (st : AnalyzerAttrs) (v : PyVal) :
    AnalyzerAttrs × Option AttrError :=
  if isDataFrame v then ({ st with videosStatDf := v }, none)
  else (st, some .dataFrameAssignment)

/-- A well-formed header as the collaborator would deliver it. -/
def headerOk : HeaderRaw :=
  { headerName := "Name".toList
    subsText := "235".toList
    videosText := "235".toList
    joinDateText := "Nov 27, 2021".toList
    totalViewsText := "3,130 views".toList }

/-- A run in which everything up to video enumeration succeeds but the
enumeration step discovers zero video links. -/
def envZeroLinks : ScrapeEnv :=
  { openFails := false
    consentFails := false
    headerTexts := some headerOk
    links := []
    videoRaw := fun _ => none }

/-- A run in which the header elements are found but the joined-date cell
holds text the date parser rejects. -/
def envBadJoinDate : ScrapeEnv :=
  { openFails := false
    consentFails := false
    headerTexts := some { headerOk with joinDateText := "garbage".toList }
    links := []
    videoRaw := fun _ => none }

/-- A run in which the subscriber-count cell holds text the count parser
rejects. -/
def envBadSubs : ScrapeEnv :=
  { openFails := false
    consentFails := false
    headerTexts := some { headerOk with subsText := "abc".toList }
    links := []
    videoRaw := fun _ => none }

/-- A run with exactly one discovered video whose page then raises
`NoSuchElementException`, so the video is skipped. -/
def envVideoMissing : ScrapeEnv :=
  { openFails := false
    consentFails := false
    headerTexts := none
    links := ["v1".toList]
    videoRaw := fun _ => none }

/-- Raw texts of a video page whose views text the views parser rejects. -/
def videoBadViews : VideoRaw :=
  { title := "t".toList
    viewsText := "x views".toList
    dateText := "Nov 27, 2021".toList
    description := [] }

/-- A run in which the first video page is missing (so the video is
skipped) and the second delivers a malformed views text. -/
def envBadVideoViews : ScrapeEnv :=
  { openFails := false
    consentFails := false
    headerTexts := none
    links := ["m".toList, "b".toList]
    videoRaw := fun l => if l = "b".toList then some videoBadViews else none }

/-- Raw texts of a video page whose date text the date parser rejects. -/
def videoBadDate : VideoRaw :=
  { title := "t".toList
    viewsText := "3,130 views".toList
    dateText := "garbage".toList
    description := [] }

/-- A run in which the only video page delivers a malformed date text. -/
def envBadVideoDate : ScrapeEnv :=
  { openFails := false
    consentFails := false
    headerTexts := none
    links := ["b".toList]
    videoRaw := fun l => if l = "b".toList then some videoBadDate else none }

/-- The four digit characters of a year below 10000, most significant
first (the `%Y` rendering of such a year, and the shape `\d\d\d\d` the
`strptime` year pattern consumes). -/
def yd4 (y : Nat) : List Char :=
  [Char.ofNat (48 + y / 1000), Char.ofNat (48 + y / 100 % 10),
   Char.ofNat (48 + y / 10 % 10), Char.ofNat (48 + y % 10)]

/-- Month abbreviation of month number `m` (1-12). -/
def monthChars (m : Nat) : List Char := monthAbbrevs.getD (m - 1) []

/-- Everything after the month abbreviation in a date rendered as
`<abbrev> DD, YYYY`: a space, the padded day, a comma, a space and the
four year digits. -/
def dateTail (d y : Nat) : List Char := ' ' :: (pad2 d ++ ',' :: ' ' :: yd4 y)

/-!  Theorems. -/

/-- Digit characters are none of the special characters the count parser
manipulates. -/
theorem isDigit_ne_dot {c : Char} (h : c.isDigit = true) : c ≠ '.' := by
  intro he; subst he; exact absurd h (by decide)

/-- Digit characters are not `'K'`. -/
theorem isDigit_ne_K {c : Char} (h : c.isDigit = true) : c ≠ 'K' := by
  intro he; subst he; exact absurd h (by decide)

/-- Digit characters are not `'M'`. -/
theorem isDigit_ne_M {c : Char} (h : c.isDigit = true) : c ≠ 'M' := by
  intro he; subst he; exact absurd h (by decide)

/-- Digit characters are not whitespace. -/
theorem isDigit_not_ws {c : Char} (h : c.isDigit = true) : c.isWhitespace = false := by
  cases hw : c.isWhitespace
  · rfl
  · exfalso
    simp only [Char.isWhitespace, Bool.or_eq_true, decide_eq_true_eq] at hw
    rcases hw with ((h2 | h2) | h2) | h2 <;> subst h2 <;> exact absurd h (by decide)

/-- Removing a character that occurs nowhere in an all-digit list is the
identity. -/
theorem pyRemoveChar_all_digits (x : Char) (l : List Char)
    (hl : l.all Char.isDigit = true) (hx : ∀ c : Char, c.isDigit = true → c ≠ x) :
    pyRemoveChar x l = l := by
  unfold pyRemoveChar
  apply List.filter_eq_self.mpr
  intro c hc
  have hd : c.isDigit = true := by
    rw [List.all_eq_true] at hl
    exact hl c hc
  simp [hx c hd]

/-- `pyRemoveChar` distributes over append. -/
theorem pyRemoveChar_append (x : Char) (l1 l2 : List Char) :
    pyRemoveChar x (l1 ++ l2) = pyRemoveChar x l1 ++ pyRemoveChar x l2 :=
  List.filter_append _ _

/-- The removed character disappears from the head. -/
theorem pyRemoveChar_cons_self (x : Char) (l : List Char) :
    pyRemoveChar x (x :: l) = pyRemoveChar x l := by
  simp [pyRemoveChar]

/-- Other head characters survive `pyRemoveChar`. -/
theorem pyRemoveChar_cons_ne (x c : Char) (l : List Char) (h : c ≠ x) :
    pyRemoveChar x (c :: l) = c :: pyRemoveChar x l := by
  simp [pyRemoveChar, h]

/-- Membership reading of the model of Python `in`. -/
theorem pyContainsChar_iff (c : Char) (l : List Char) :
    pyContainsChar c l = true ↔ c ∈ l := by
  simp [pyContainsChar]

/-- Splitting a non-empty text with no whitespace yields the one word. -/
theorem splitWsAux_no_ws :
    ∀ (s cur : List Char), (∀ c ∈ s, c.isWhitespace = false) →
      (cur ≠ [] ∨ s ≠ []) → splitWsAux s cur = [cur.reverse ++ s] := by
  intro s
  induction s with
  | nil =>
    intro cur _ hne
    rcases hne with h | h
    · simp [splitWsAux, List.isEmpty_iff, h]
    · exact absurd rfl h
  | cons c t ih =>
    intro cur hws _
    have hc : c.isWhitespace = false := hws c (by simp)
    simp only [splitWsAux, hc]
    rw [if_neg (by simp)]
    rw [ih (c :: cur) (fun x hx => hws x (by simp [hx])) (Or.inl (by simp))]
    simp

/-- Model of `s.split()` on a non-empty all-digit text: one word. -/
theorem pySplitWs_digits (w : List Char) (hne : w ≠ []) (hd : w.all Char.isDigit = true) :
    pySplitWs w = [w] := by
  unfold pySplitWs
  rw [splitWsAux_no_ws w [] ?_ (Or.inr hne)]
  · simp
  · intro c hc
    rw [List.all_eq_true] at hd
    exact isDigit_not_ws (hd c hc)

/-- Splitting text that opens with a whitespace-free word and a space:
the word is the first piece. -/
theorem splitWsAux_word_space (t : List Char) :
    ∀ (w cur : List Char), (∀ c ∈ w, c.isWhitespace = false) →
      (cur ≠ [] ∨ w ≠ []) →
      splitWsAux (w ++ ' ' :: t) cur = (cur.reverse ++ w) :: splitWsAux t [] := by
  intro w
  induction w with
  | nil =>
    intro cur _ hne
    rcases hne with h | h
    · show splitWsAux (' ' :: t) cur = _
      simp only [splitWsAux]
      rw [if_pos (show (' ' : Char).isWhitespace = true by decide),
        if_neg (by simp [List.isEmpty_iff, h])]
      simp
    · exact absurd rfl h
  | cons c w2 ih =>
    intro cur hws _
    have hc : c.isWhitespace = false := hws c (by simp)
    show splitWsAux (c :: (w2 ++ ' ' :: t)) cur = _
    simp only [splitWsAux, hc]
    rw [if_neg (by simp)]
    rw [ih (c :: cur) (fun x hx => hws x (by simp [hx])) (Or.inl (by simp))]
    simp

/-- `s.split()` on a digit word, a space and an arbitrary tail begins
with the digit word. -/
theorem pySplitWs_word_space (w t : List Char) (hne : w ≠ [])
    (hd : w.all Char.isDigit = true) :
    pySplitWs (w ++ ' ' :: t) = w :: pySplitWs t := by
  unfold pySplitWs
  rw [splitWsAux_word_space t w [] ?_ (Or.inr hne)]
  · simp
  · intro c hc
    rw [List.all_eq_true] at hd
    exact isDigit_not_ws (hd c hc)

/-- Model of `int()` on a non-empty digit string. -/
theorem pyInt_digits (w : List Char) (hne : w ≠ []) (hd : w.all Char.isDigit = true) :
    pyInt w = some (digitsToNat w) := by
  unfold pyInt
  rw [if_neg (by simp [List.isEmpty_iff, hne]), if_pos hd]

/-- Floor arithmetic behind the `threshold` loop: dividing `10 ^ k` by ten
`len - 1` times and truncating after the multiplication yields an exact
integer while `len ≤ k + 1`. -/
theorem floor_nat_mul_pow_div (n k len : ℕ) (h1 : 1 ≤ len) (h2 : len ≤ k + 1) :
    ⌊(n : ℚ) * ((10 : ℚ) ^ k / 10 ^ (len - 1))⌋ = ((n * 10 ^ (k + 1 - len) : ℕ) : ℤ) := by
  have hpow : (10 : ℚ) ^ k / 10 ^ (len - 1) = (10 : ℚ) ^ (k + 1 - len) := by
    rw [div_eq_mul_inv, ← pow_sub₀ (10 : ℚ) (by norm_num) (show len - 1 ≤ k by omega)]
    congr 1
    omega
  rw [hpow]
  rw [show ((10 : ℚ) = ((10 : ℕ) : ℚ)) by norm_num, ← Nat.cast_pow, ← Nat.cast_mul]
  exact Int.floor_natCast _

/-- C4: for every pair of channel identifiers where at least one is empty,
`analyze_channels` fails with `MissingChannelNamesError` (the spec's
`MissingChannelIdentifierError`) for every possible harvesting
collaborator — the result does not depend on `analyze_channel` at all, so
the collaborator is never invoked (the validation precedes the executor
fan-out in the source). -/
theorem analyze_channels_fails_fast_on_empty_name {α : Type}
    (analyze_channel : String → α) (pivot targeted : String)
    (h : pivot = "" ∨ targeted = "") :
    analyze_channels analyze_channel pivot targeted = .error .missingChannelNames := by
  unfold analyze_channels
  rw [if_pos h]

/-- Witness for C4: `run("", "x")` fails, with an arbitrary concrete
collaborator. -/
theorem analyze_channels_fails_fast_on_empty_name_witness :
    ("" = "" ∨ "x" = "") ∧
      analyze_channels (fun _ => (0 : Nat)) "" "x" = .error .missingChannelNames :=
  ⟨Or.inl rfl, analyze_channels_fails_fast_on_empty_name (fun _ => (0 : Nat)) "" "x" (Or.inl rfl)⟩

/-- C7: whatever the scraping collaborator does — success, recoverable
per-item failures, or a fatal error in any step — `harvest_data` leaves
the driver closed: the `finally` clause runs on every exit path. -/
theorem harvest_data_always_closes_driver (env : ScrapeEnv) :
    (harvest_data env).1.driverOpen = false := rfl

/-- C10: the `channel_name` setter raises `ChannelIsNone` on `None`, the
three dataframe setters raise `DataFrameAssignment` on any non-DataFrame
value, and in every such error case the stored attributes are returned
unchanged (validation precedes the write). -/
theorem setters_validate_before_write (st : AnalyzerAttrs) (v : PyVal)
    (hv : isDataFrame v = false) :
    channel_name_setter st .noneVal = (st, some .channelIsNone) ∧
      general_info_dataframe_setter st v = (st, some .dataFrameAssignment) ∧
      videos_info_dataframe_setter st v = (st, some .dataFrameAssignment) ∧
      videos_statistic_dataframe_setter st v = (st, some .dataFrameAssignment) := by
  refine ⟨by simp [channel_name_setter], ?_, ?_, ?_⟩ <;>
    simp [general_info_dataframe_setter, videos_info_dataframe_setter,
      videos_statistic_dataframe_setter, hv]

/-- Witness for C10 at a concrete attribute record, with `None` assigned
to a dataframe setter (the repository's own test case). -/
theorem setters_validate_before_write_witness :
    isDataFrame .noneVal = false ∧
      (channel_name_setter ⟨.strVal "@a", .noneVal, .noneVal, .noneVal⟩ .noneVal =
          (⟨.strVal "@a", .noneVal, .noneVal, .noneVal⟩, some .channelIsNone) ∧
        general_info_dataframe_setter ⟨.strVal "@a", .noneVal, .noneVal, .noneVal⟩ .noneVal =
          (⟨.strVal "@a", .noneVal, .noneVal, .noneVal⟩, some .dataFrameAssignment) ∧
        videos_info_dataframe_setter ⟨.strVal "@a", .noneVal, .noneVal, .noneVal⟩ .noneVal =
          (⟨.strVal "@a", .noneVal, .noneVal, .noneVal⟩, some .dataFrameAssignment) ∧
        videos_statistic_dataframe_setter ⟨.strVal "@a", .noneVal, .noneVal, .noneVal⟩ .noneVal =
          (⟨.strVal "@a", .noneVal, .noneVal, .noneVal⟩, some .dataFrameAssignment)) :=
  ⟨rfl, setters_validate_before_write ⟨.strVal "@a", .noneVal, .noneVal, .noneVal⟩ .noneVal rfl⟩

/-- C2 (failing run): when the video-enumeration step yields zero links —
everything else succeeding — `harvest_data` does not complete: the empty
videos record list yields a column-less dataframe, `describe()` fails
(leaving the statistics frame `None`), and `df['date']` in
`_extract_years_of_activity` raises a `KeyError` that propagates out of
`harvest_data` (the driver is still closed by `finally`). -/
theorem harvest_data_zero_links_raises_keyerror :
    (harvest_data envZeroLinks).2 = some PyError.keyErr ∧
      (harvest_data envZeroLinks).1.allVideosDetails = [] ∧
      (harvest_data envZeroLinks).1.videosDf = some [] ∧
      (harvest_data envZeroLinks).1.statsDf = none ∧
      (harvest_data envZeroLinks).1.yearsOfActivity = [] ∧
      (harvest_data envZeroLinks).1.driverOpen = false := by
  refine ⟨?_, ?_, ?_, ?_, ?_, ?_⟩ <;> decide

/-- C3 (counterexample): a malformed joined-date text in the profile
header is not caught inside `_get_general_info` — only
`NoSuchElementException` is — so the `ValueError` aborts the whole
pipeline: `harvest_data` re-raises it. -/
theorem malformed_date_aborts_pipeline :
    get_general_info envBadJoinDate initState = .error PyError.valueErr ∧
      (harvest_data envBadJoinDate).2 = some PyError.valueErr := by
  exact ⟨rfl, by decide⟩

/-- Skipping lemma: when every remaining video page raises
`NoSuchElementException`, the detail loop returns its accumulator
unchanged. -/
theorem find_videos_info_go_all_missing (env : ScrapeEnv) :
    ∀ (ls : List (List Char)) (acc : List VideoDetails),
      (∀ l ∈ ls, env.videoRaw l = none) →
      find_videos_info_go env ls acc = .ok acc := by
  intro ls
  induction ls with
  | nil => intro acc _; rfl
  | cons l t ih =>
    intro acc hn
    have hl : env.videoRaw l = none := hn l (by simp)
    simp only [find_videos_info_go, hl]
    exact ih acc (fun x hx => hn x (by simp [hx]))

/-- Abort lemma: once the loop reaches a video page that is found but
whose views or date text the normalizers reject, the `ValueError`
escapes the loop (any earlier missing pages having been skipped). -/
theorem find_videos_info_go_malformed (env : ScrapeEnv) (l : List Char)
    (v : VideoRaw) (hv : env.videoRaw l = some v)
    (hbad : format_views v.viewsText = none ∨ convert_date v.dateText = none) :
    ∀ pre : List (List Char), (∀ p ∈ pre, env.videoRaw p = none) →
      ∀ (rest : List (List Char)) (acc : List VideoDetails),
        find_videos_info_go env (pre ++ l :: rest) acc = .error PyError.valueErr := by
  intro pre
  induction pre with
  | nil =>
    intro _ rest acc
    show find_videos_info_go env (l :: rest) acc = _
    simp only [find_videos_info_go, hv]
    rcases hbad with hb | hb
    · show (toVE (format_views v.viewsText) >>= _) = _
      rw [hb]
      rfl
    · cases hfv : format_views v.viewsText with
      | none => rfl
      | some n =>
        show (toVE (convert_date v.dateText) >>= _) = _
        rw [hb]
        rfl
  | cons p t ih =>
    intro hn rest acc
    have hp : env.videoRaw p = none := hn p (by simp)
    show find_videos_info_go env (p :: (t ++ l :: rest)) acc = _
    simp only [find_videos_info_go, hp]
    exact ih (fun x hx => hn x (by simp [hx])) rest acc

/-- C3 (amended): only element-lookup failures
(`NoSuchElementException`) are caught at the extraction call sites — a
missing header degrades to "no profile entry", a missing video page to
"video skipped" — while a malformed count or date raised by the
text-normalization helpers propagates out of the extraction step,
whether it comes from the profile header or from a video page, and
aborts the whole pipeline (`harvest_data` re-raises it). -/
theorem extraction_failure_containment (env : ScrapeEnv) (st : HarvestState)
    (h : HeaderRaw) (pre : List (List Char)) (l : List Char)
    (rest : List (List Char)) (v : VideoRaw)
    (hho : env.openFails = false) (hhc : env.consentFails = false) :
    (env.headerTexts = none → get_general_info env st = .ok st) ∧
      ((∀ l2 ∈ st.linksOfAllVideos, env.videoRaw l2 = none) →
        find_videos_info env st = .ok st) ∧
      (env.headerTexts = some h → convert_subs_or_videos h.subsText = none →
        (harvest_data env).2 = some PyError.valueErr) ∧
      (st.linksOfAllVideos = pre ++ l :: rest →
        (∀ p ∈ pre, env.videoRaw p = none) →
        env.videoRaw l = some v →
        (format_views v.viewsText = none ∨ convert_date v.dateText = none) →
        find_videos_info env st = .error PyError.valueErr) ∧
      (env.headerTexts = none →
        env.links = pre ++ l :: rest →
        (∀ p ∈ pre, env.videoRaw p = none) →
        env.videoRaw l = some v →
        (format_views v.viewsText = none ∨ convert_date v.dateText = none) →
        (harvest_data env).2 = some PyError.valueErr) := by
  refine ⟨?_, ?_, ?_, ?_, ?_⟩
  · intro hh
    unfold get_general_info
    rw [hh]
  · intro hn
    unfold find_videos_info
    rw [find_videos_info_go_all_missing env st.linksOfAllVideos [] hn]
    show Except.ok { st with allVideosDetails := st.allVideosDetails ++ [] } = Except.ok st
    rw [List.append_nil]
  · intro hh hsubs
    have h1 : open_url env initState = .ok initState := by simp [open_url, hho]
    have h2 : access_youtube env initState = .ok initState := by
      simp [access_youtube, hhc]
    have h3 : get_general_info env initState = .error .valueErr := by
      unfold get_general_info
      rw [hh]
      show (toVE (convert_subs_or_videos h.subsText) >>= _) = _
      rw [hsubs]
      rfl
    simp [harvest_data, pyThen, h1, h2, h3]
  · intro hlinks hpre hv hbad
    unfold find_videos_info
    rw [hlinks, find_videos_info_go_malformed env l v hv hbad pre hpre rest []]
    rfl
  · intro hh hlinks hpre hv hbad
    have h1 : open_url env initState = .ok initState := by simp [open_url, hho]
    have h2 : access_youtube env initState = .ok initState := by
      simp [access_youtube, hhc]
    have h3 : get_general_info env initState = .ok initState := by
      unfold get_general_info
      rw [hh]
    have h4 : find_all_videos_links env initState =
        { initState with linksOfAllVideos := env.links } := rfl
    have h5 : find_videos_info env { initState with linksOfAllVideos := env.links } =
        .error PyError.valueErr := by
      unfold find_videos_info
      have hproj : ({ initState with linksOfAllVideos := env.links } :
          HarvestState).linksOfAllVideos = pre ++ l :: rest := hlinks
      rw [hproj, find_videos_info_go_malformed env l v hv hbad pre hpre rest []]
      rfl
    simp [harvest_data, pyThen, h1, h2, h3, h4, h5]

/-- Witness for C3 (amended), exercising all five conjuncts on concrete
runs: a missing header record, a discovered video whose page is missing
(the video is skipped, with a non-empty link list), a malformed header
subscriber count, and a skipped first video followed by a second whose
views text — resp. a single video whose date text — is malformed. -/
theorem extraction_failure_containment_witness :
    (get_general_info { envZeroLinks with headerTexts := none } initState = .ok initState) ∧
      (find_videos_info envVideoMissing
          { initState with linksOfAllVideos := ["v1".toList] } =
        .ok { initState with linksOfAllVideos := ["v1".toList] }) ∧
      ((harvest_data envBadSubs).2 = some PyError.valueErr) ∧
      (find_videos_info envBadVideoViews
          { initState with linksOfAllVideos := ["m".toList, "b".toList] } =
        .error PyError.valueErr) ∧
      ((harvest_data envBadVideoViews).2 = some PyError.valueErr) ∧
      ((harvest_data envBadVideoDate).2 = some PyError.valueErr) :=
  ⟨(extraction_failure_containment { envZeroLinks with headerTexts := none }
      initState headerOk [] [] [] videoBadViews rfl rfl).1 rfl,
   (extraction_failure_containment envVideoMissing
      { initState with linksOfAllVideos := ["v1".toList] }
      headerOk [] [] [] videoBadViews rfl rfl).2.1 (by decide),
   (extraction_failure_containment envBadSubs initState
      { headerOk with subsText := "abc".toList } [] [] [] videoBadViews
      rfl rfl).2.2.1 rfl (by decide),
   (extraction_failure_containment envBadVideoViews
      { initState with linksOfAllVideos := ["m".toList, "b".toList] }
      headerOk ["m".toList] "b".toList [] videoBadViews rfl rfl).2.2.2.1
      rfl (by decide) (by decide) (Or.inl (by decide)),
   (extraction_failure_containment envBadVideoViews initState
      headerOk ["m".toList] "b".toList [] videoBadViews rfl rfl).2.2.2.2
      rfl rfl (by decide) (by decide) (Or.inl (by decide)),
   (extraction_failure_containment envBadVideoDate initState
      headerOk [] "b".toList [] videoBadDate rfl rfl).2.2.2.2
      rfl rfl (by decide) (by decide) (Or.inr (by decide))⟩

/-- Heap facts about `df.copy()`: the copy holds the same value, lives at
a fresh reference, and writing through it does not disturb the original. -/
theorem copyGetterSpec (hp : PdHeap) (r : Nat) (hrr : r < hp.store.length) :
    dfAt (dfCopy hp r).2 (dfCopy hp r).1 = dfAt hp r ∧
      (dfCopy hp r).1 ≠ r ∧
      (∀ v, dfAt (dfWrite (dfCopy hp r).2 (dfCopy hp r).1 v) r = dfAt hp r) ∧
      (∀ v, r < (dfWrite (dfCopy hp r).2 (dfCopy hp r).1 v).store.length) := by
  refine ⟨?_, by simp [dfCopy]; omega, ?_, ?_⟩
  · simp [dfCopy, dfAt, List.getD_eq_getElem?_getD, List.getElem?_concat_length]
  · intro v
    simp only [dfCopy, dfWrite, dfAt, List.getD_eq_getElem?_getD]
    rw [List.getElem?_set_ne (by omega)]
    rw [List.getElem?_append_left hrr]
  · intro v
    simp [dfCopy, dfWrite]
    omega

/-- C9: each dataframe property returns `self._<field>.copy()` — a fresh
object holding the same value — so mutating the returned object leaves
the stored dataframe unchanged, and a second property call still sees the
original data. -/
theorem dataframe_getters_return_copies (a : AnalyzerRefs) (h : PdHeap) (r : Nat)
    (hr : r < h.store.length) :
    (a.generalInfoRef = some r →
      ∃ r2 h2, general_info_dataframe a h = .ok (r2, h2) ∧
        dfAt h2 r2 = dfAt h r ∧ r2 ≠ r ∧
        (∀ v, dfAt (dfWrite h2 r2 v) r = dfAt h r) ∧
        (∀ v, ∃ r3 h3, general_info_dataframe a (dfWrite h2 r2 v) = .ok (r3, h3) ∧
          dfAt h3 r3 = dfAt h r)) ∧
    (a.videosInfoRef = some r →
      ∃ r2 h2, videos_info_dataframe a h = .ok (r2, h2) ∧
        dfAt h2 r2 = dfAt h r ∧ r2 ≠ r ∧
        (∀ v, dfAt (dfWrite h2 r2 v) r = dfAt h r) ∧
        (∀ v, ∃ r3 h3, videos_info_dataframe a (dfWrite h2 r2 v) = .ok (r3, h3) ∧
          dfAt h3 r3 = dfAt h r)) ∧
    (a.videosStatRef = some r →
      ∃ r2 h2, videos_statistic_dataframe a h = .ok (r2, h2) ∧
        dfAt h2 r2 = dfAt h r ∧ r2 ≠ r ∧
        (∀ v, dfAt (dfWrite h2 r2 v) r = dfAt h r) ∧
        (∀ v, ∃ r3 h3, videos_statistic_dataframe a (dfWrite h2 r2 v) = .ok (r3, h3) ∧
          dfAt h3 r3 = dfAt h r)) := by
  have e1 : a.generalInfoRef = some r → general_info_dataframe a h = .ok (dfCopy h r) := by
    intro hg; unfold general_info_dataframe; rw [hg]
  have e2 : a.videosInfoRef = some r → videos_info_dataframe a h = .ok (dfCopy h r) := by
    intro hg; unfold videos_info_dataframe; rw [hg]
  have e3 : a.videosStatRef = some r → videos_statistic_dataframe a h = .ok (dfCopy h r) := by
    intro hg; unfold videos_statistic_dataframe; rw [hg]
  have e1' : ∀ hp : PdHeap, a.generalInfoRef = some r →
      general_info_dataframe a hp = .ok (dfCopy hp r) := by
    intro hp hg; unfold general_info_dataframe; rw [hg]
  have e2' : ∀ hp : PdHeap, a.videosInfoRef = some r →
      videos_info_dataframe a hp = .ok (dfCopy hp r) := by
    intro hp hg; unfold videos_info_dataframe; rw [hg]
  have e3' : ∀ hp : PdHeap, a.videosStatRef = some r →
      videos_statistic_dataframe a hp = .ok (dfCopy hp r) := by
    intro hp hg; unfold videos_statistic_dataframe; rw [hg]
  obtain ⟨c1, c2, c3, c4⟩ := copyGetterSpec h r hr
  refine ⟨?_, ?_, ?_⟩ <;> intro hg
  · refine ⟨(dfCopy h r).1, (dfCopy h r).2, by rw [e1 hg], c1, c2, c3, ?_⟩
    intro v
    obtain ⟨d1, -, -, -⟩ :=
      copyGetterSpec (dfWrite (dfCopy h r).2 (dfCopy h r).1 v) r (c4 v)
    exact ⟨_, _, by rw [e1' _ hg], by rw [d1, c3 v]⟩
  · refine ⟨(dfCopy h r).1, (dfCopy h r).2, by rw [e2 hg], c1, c2, c3, ?_⟩
    intro v
    obtain ⟨d1, -, -, -⟩ :=
      copyGetterSpec (dfWrite (dfCopy h r).2 (dfCopy h r).1 v) r (c4 v)
    exact ⟨_, _, by rw [e2' _ hg], by rw [d1, c3 v]⟩
  · refine ⟨(dfCopy h r).1, (dfCopy h r).2, by rw [e3 hg], c1, c2, c3, ?_⟩
    intro v
    obtain ⟨d1, -, -, -⟩ :=
      copyGetterSpec (dfWrite (dfCopy h r).2 (dfCopy h r).1 v) r (c4 v)
    exact ⟨_, _, by rw [e3' _ hg], by rw [d1, c3 v]⟩

/-- Witness for C9 at a one-dataframe heap with all three attributes set. -/
theorem dataframe_getters_return_copies_witness :
    (0 : Nat) < (PdHeap.mk [[[5]]]).store.length ∧
      ((AnalyzerRefs.mk (some 0) (some 0) (some 0)).generalInfoRef = some 0 →
        ∃ r2 h2, general_info_dataframe ⟨some 0, some 0, some 0⟩ ⟨[[[5]]]⟩ = .ok (r2, h2) ∧
          dfAt h2 r2 = dfAt ⟨[[[5]]]⟩ 0 ∧ r2 ≠ 0 ∧
          (∀ v, dfAt (dfWrite h2 r2 v) 0 = dfAt ⟨[[[5]]]⟩ 0) ∧
          (∀ v, ∃ r3 h3,
            general_info_dataframe ⟨some 0, some 0, some 0⟩ (dfWrite h2 r2 v) = .ok (r3, h3) ∧
            dfAt h3 r3 = dfAt ⟨[[[5]]]⟩ 0)) :=
  ⟨by norm_num,
    (dataframe_getters_return_copies ⟨some 0, some 0, some 0⟩ ⟨[[[5]]]⟩ 0 (by norm_num)).1⟩

/-- C1 (counterexample): on `"2.37K"` the code returns `237000`, while the
spec's scaling rule `int(digits) * (U / 10 ^ d)` — digits `237`, `d = 2`
fractional digits, `U = 1000` for `K` — demands `2370`. -/
theorem convert_subs_spec_scaling_counterexample :
    convert_subs_or_videos ['2', '.', '3', '7', 'K'] = some 237000 ∧
      (237 : ℤ) * (1000 / 10 ^ 2) = 2370 ∧ (237000 : ℤ) ≠ 2370 := by
  refine ⟨?_, by decide, by decide⟩
  have h1 : pyRemoveChar '.' ['2', '.', '3', '7', 'K'] = ['2', '3', '7', 'K'] := by decide
  have h2 : pyRemoveChar 'K' ['2', '3', '7', 'K'] = ['2', '3', '7'] := by decide
  have h3 : pyInt ['2', '3', '7'] = some 237 := by decide
  rw [convert_subs_or_videos, h1]
  norm_num [pyContainsChar, h2, h3]

/-- C1 (amended): the code's actual rule.  Whenever the dot-stripped
text is digits followed by a unit letter — a compact count with or
without a decimal point — the result is `int(digits) * (T / 10 ^ (n - 1))`
where `n` is the TOTAL digit count (not the count of fractional digits)
and `T` is `100000` for `K` and `1000000` for `M`; with `n ≤ 6` the float
arithmetic is exact and the result is `int(digits) * 10 ^ (6 - n)` resp.
`* 10 ^ (7 - n)`.  Without a unit letter the text before the first space
(the whole text when there is no space) is parsed as the integer.  In
particular `"100K" → 100000`, `"2.37K" → 237000` (not the spec's 2370),
`"5.347M" → 5347000` and `"235" → 235`. -/
theorem convert_subs_or_videos_code_rule :
    (∀ s v : List Char, v ≠ [] → v.all Char.isDigit = true → v.length ≤ 6 →
      pyRemoveChar '.' s = v ++ ['K'] →
      convert_subs_or_videos s =
        some ((digitsToNat v * 10 ^ (6 - v.length) : ℕ) : ℤ)) ∧
    (∀ s v : List Char, v ≠ [] → v.all Char.isDigit = true → v.length ≤ 6 →
      pyRemoveChar '.' s = v ++ ['M'] →
      convert_subs_or_videos s =
        some ((digitsToNat v * 10 ^ (7 - v.length) : ℕ) : ℤ)) ∧
    (∀ w rest : List Char, w ≠ [] → w.all Char.isDigit = true →
      'K' ∉ rest → 'M' ∉ rest →
      convert_subs_or_videos (w ++ ' ' :: rest) = some ((digitsToNat w : ℕ) : ℤ)) ∧
    (∀ w : List Char, w ≠ [] → w.all Char.isDigit = true →
      convert_subs_or_videos w = some ((digitsToNat w : ℕ) : ℤ)) ∧
    convert_subs_or_videos "100K".toList = some 100000 ∧
    convert_subs_or_videos "2.37K".toList = some 237000 ∧
    convert_subs_or_videos "5.347M".toList = some 5347000 ∧
    convert_subs_or_videos "235".toList = some 235 := by
  have hremNil : ∀ u : Char, pyRemoveChar u [] = [] := fun u => rfl
  have hKgen : ∀ s v : List Char, v ≠ [] → v.all Char.isDigit = true → v.length ≤ 6 →
      pyRemoveChar '.' s = v ++ ['K'] →
      convert_subs_or_videos s =
        some ((digitsToNat v * 10 ^ (6 - v.length) : ℕ) : ℤ) := by
    intro s v hv hvd hlen hstrip
    have hvpos : 1 ≤ v.length := by
      cases v with
      | nil => exact absurd rfl hv
      | cons c t => simp
    have hcont : pyContainsChar 'K' (v ++ ['K']) = true := by
      rw [pyContainsChar_iff]; simp
    have hrem : pyRemoveChar 'K' (v ++ ['K']) = v := by
      rw [pyRemoveChar_append,
        pyRemoveChar_all_digits 'K' v hvd (fun c hc => isDigit_ne_K hc),
        pyRemoveChar_cons_self, hremNil, List.append_nil]
    rw [convert_subs_or_videos, hstrip, hcont, if_pos rfl, hrem]
    dsimp only
    rw [pyInt_digits v hv hvd, Option.map_some',
      show ((100000 : ℚ) = (10 : ℚ) ^ 5) by norm_num,
      floor_nat_mul_pow_div (digitsToNat v) 5 v.length hvpos (by omega)]
  have hMgen : ∀ s v : List Char, v ≠ [] → v.all Char.isDigit = true → v.length ≤ 6 →
      pyRemoveChar '.' s = v ++ ['M'] →
      convert_subs_or_videos s =
        some ((digitsToNat v * 10 ^ (7 - v.length) : ℕ) : ℤ) := by
    intro s v hv hvd hlen hstrip
    have hvpos : 1 ≤ v.length := by
      cases v with
      | nil => exact absurd rfl hv
      | cons c t => simp
    have hcontK : pyContainsChar 'K' (v ++ ['M']) = false := by
      rw [← Bool.not_eq_true, pyContainsChar_iff]
      intro hmem
      rw [List.all_eq_true] at hvd
      rcases List.mem_append.mp hmem with hma | hmm
      · exact isDigit_ne_K (hvd 'K' hma) rfl
      · simp at hmm
    have hcontM : pyContainsChar 'M' (v ++ ['M']) = true := by
      rw [pyContainsChar_iff]; simp
    have hrem : pyRemoveChar 'M' (v ++ ['M']) = v := by
      rw [pyRemoveChar_append,
        pyRemoveChar_all_digits 'M' v hvd (fun c hc => isDigit_ne_M hc),
        pyRemoveChar_cons_self, hremNil, List.append_nil]
    rw [convert_subs_or_videos, hstrip, hcontK, hcontM,
      if_neg (by simp), if_pos rfl, hrem]
    dsimp only
    rw [pyInt_digits v hv hvd, Option.map_some',
      show ((1000000 : ℚ) = (10 : ℚ) ^ 6) by norm_num,
      floor_nat_mul_pow_div (digitsToNat v) 6 v.length hvpos (by omega)]
  have hSpace : ∀ w rest : List Char, w ≠ [] → w.all Char.isDigit = true →
      'K' ∉ rest → 'M' ∉ rest →
      convert_subs_or_videos (w ++ ' ' :: rest) = some ((digitsToNat w : ℕ) : ℤ) := by
    intro w rest hw hwd hK hM
    have hdotw : pyRemoveChar '.' w = w :=
      pyRemoveChar_all_digits '.' w hwd (fun c hc => isDigit_ne_dot hc)
    have hvnp : pyRemoveChar '.' (w ++ ' ' :: rest) =
        w ++ ' ' :: pyRemoveChar '.' rest := by
      rw [pyRemoveChar_append, hdotw, pyRemoveChar_cons_ne '.' ' ' rest (by decide)]
    have hsub : ∀ c : Char, c ∈ pyRemoveChar '.' rest → c ∈ rest := by
      intro c hc
      exact (List.mem_filter.mp hc).1
    have hcontK : pyContainsChar 'K' (w ++ ' ' :: pyRemoveChar '.' rest) = false := by
      rw [← Bool.not_eq_true, pyContainsChar_iff]
      intro hmem
      rw [List.all_eq_true] at hwd
      rcases List.mem_append.mp hmem with hma | hmb
      · exact isDigit_ne_K (hwd 'K' hma) rfl
      · rcases List.mem_cons.mp hmb with hsp | hmr
        · exact absurd hsp (by decide)
        · exact hK (hsub 'K' hmr)
    have hcontM : pyContainsChar 'M' (w ++ ' ' :: pyRemoveChar '.' rest) = false := by
      rw [← Bool.not_eq_true, pyContainsChar_iff]
      intro hmem
      rw [List.all_eq_true] at hwd
      rcases List.mem_append.mp hmem with hma | hmb
      · exact isDigit_ne_M (hwd 'M' hma) rfl
      · rcases List.mem_cons.mp hmb with hsp | hmr
        · exact absurd hsp (by decide)
        · exact hM (hsub 'M' hmr)
    rw [convert_subs_or_videos, hvnp, hcontK, hcontM,
      if_neg (by simp), if_neg (by simp),
      pySplitWs_word_space w (pyRemoveChar '.' rest) hw hwd]
    dsimp only
    rw [pyInt_digits w hw hwd]
    rfl
  have hPlain : ∀ w : List Char, w ≠ [] → w.all Char.isDigit = true →
      convert_subs_or_videos w = some ((digitsToNat w : ℕ) : ℤ) := by
    intro w hw hwd
    have hdot : pyRemoveChar '.' w = w :=
      pyRemoveChar_all_digits '.' w hwd (fun c hc => isDigit_ne_dot hc)
    have hcontK : pyContainsChar 'K' w = false := by
      rw [← Bool.not_eq_true, pyContainsChar_iff]
      intro hmem
      rw [List.all_eq_true] at hwd
      exact isDigit_ne_K (hwd 'K' hmem) rfl
    have hcontM : pyContainsChar 'M' w = false := by
      rw [← Bool.not_eq_true, pyContainsChar_iff]
      intro hmem
      rw [List.all_eq_true] at hwd
      exact isDigit_ne_M (hwd 'M' hmem) rfl
    rw [convert_subs_or_videos, hdot, hcontK, hcontM,
      if_neg (by simp), if_neg (by simp), pySplitWs_digits w hw hwd]
    dsimp only
    rw [pyInt_digits w hw hwd]
    rfl
  refine ⟨hKgen, hMgen, hSpace, hPlain, ?_, ?_, ?_, ?_⟩
  · exact (hKgen "100K".toList ['1', '0', '0']
      (by decide) (by decide) (by decide) (by decide)).trans (by decide)
  · exact (hKgen "2.37K".toList ['2', '3', '7']
      (by decide) (by decide) (by decide) (by decide)).trans (by decide)
  · exact (hMgen "5.347M".toList ['5', '3', '4', '7']
      (by decide) (by decide) (by decide) (by decide)).trans (by decide)
  · exact (hPlain "235".toList (by decide) (by decide)).trans (by decide)

/-- Witness for C1 (amended): the four general rules instantiated at
`"100K"` (unit letter, no decimal point), `"5.347M"`, `"235 videos"`
(text after a space) and the bare `"235"`. -/
theorem convert_subs_or_videos_code_rule_witness :
    convert_subs_or_videos "100K".toList =
        some ((digitsToNat ['1', '0', '0'] *
          10 ^ (6 - (['1', '0', '0'] : List Char).length) : ℕ) : ℤ) ∧
      convert_subs_or_videos "5.347M".toList =
        some ((digitsToNat ['5', '3', '4', '7'] *
          10 ^ (7 - (['5', '3', '4', '7'] : List Char).length) : ℕ) : ℤ) ∧
      convert_subs_or_videos ("235".toList ++ ' ' :: "videos".toList) =
        some ((digitsToNat "235".toList : ℕ) : ℤ) ∧
      convert_subs_or_videos "235".toList =
        some ((digitsToNat "235".toList : ℕ) : ℤ) :=
  ⟨convert_subs_or_videos_code_rule.1 "100K".toList ['1', '0', '0']
      (by decide) (by decide) (by decide) (by decide),
   convert_subs_or_videos_code_rule.2.1 "5.347M".toList ['5', '3', '4', '7']
      (by decide) (by decide) (by decide) (by decide),
   convert_subs_or_videos_code_rule.2.2.1 "235".toList "videos".toList
      (by decide) (by decide) (by decide) (by decide),
   convert_subs_or_videos_code_rule.2.2.2.1 "235".toList (by decide) (by decide)⟩

/-- C6: `find_common_years` returns the ascending-sorted duplicate-free
enumeration of the set intersection; hence it is symmetric in its
arguments, and on a pair of equal lists it returns the sorted
duplicate-free version of that list (`sortedUnique`). -/
theorem find_common_years_spec (A B : List String) :
    (∀ x, x ∈ find_common_years A B ↔ x ∈ A ∧ x ∈ B) ∧
      (find_common_years A B).Sorted (· ≤ ·) ∧
      (find_common_years A B).Nodup ∧
      find_common_years A B = find_common_years B A ∧
      find_common_years A A = sortedUnique A := by
  have hmem : ∀ (X Y : List String) (x : String),
      x ∈ find_common_years X Y ↔ x ∈ X ∧ x ∈ Y := by
    intro X Y x
    unfold find_common_years
    rw [(List.perm_insertionSort _ _).mem_iff, List.mem_dedup, List.mem_filter]
    simp
  have hsorted : ∀ (X Y : List String), (find_common_years X Y).Sorted (· ≤ ·) :=
    fun X Y => List.sorted_insertionSort _ _
  have hnodup : ∀ (X Y : List String), (find_common_years X Y).Nodup :=
    fun X Y => (List.perm_insertionSort _ _).nodup_iff.mpr (List.nodup_dedup _)
  refine ⟨hmem A B, hsorted A B, hnodup A B, ?_, ?_⟩
  · apply List.eq_of_perm_of_sorted ?_ (hsorted A B) (hsorted B A)
    apply (List.perm_ext_iff_of_nodup (hnodup A B) (hnodup B A)).mpr
    intro x
    rw [hmem A B, hmem B A]
    exact and_comm
  · unfold find_common_years sortedUnique
    congr 1
    congr 1
    apply List.filter_eq_self.mpr
    intro x hx
    simpa using hx

/-- Success of a key lookup in an association list is membership of the
key column (Python `year not in yearly_data`). -/
theorem lookup_isSome_iff {α : Type} (y : String) :
    ∀ l : List (String × α), (List.lookup y l).isSome = true ↔ y ∈ l.map Prod.fst := by
  intro l
  induction l with
  | nil => simp [List.lookup]
  | cons p t ih =>
    obtain ⟨k, v⟩ := p
    by_cases hk : y == k
    · simp [List.lookup, hk, eq_of_beq hk]
    · simp only [List.lookup, hk, List.map_cons, List.mem_cons, ih]
      have : ¬y = k := by simpa using hk
      simp [this]

/-- A successful lookup returns one of the stored values. -/
theorem lookup_mem_values {α : Type} (y : String) (v : α) :
    ∀ l : List (String × α), List.lookup y l = some v → v ∈ l.map Prod.snd := by
  intro l
  induction l with
  | nil => simp [List.lookup]
  | cons p t ih =>
    obtain ⟨k, w⟩ := p
    by_cases hk : y == k
    · simp [List.lookup, hk]
      intro he
      exact Or.inl he.symm
    · simp only [List.lookup, hk, List.map_cons, List.mem_cons]
      intro he
      exact Or.inr (ih he)

/-- Python `d[k] += 1` on a dict that has the key: it succeeds, keeps the
key column, and raises the value column's sum by one. -/
theorem bumpKey_spec (m : String) :
    ∀ l : List (String × Nat), m ∈ l.map Prod.fst →
      ∃ l', bumpKey m l = some l' ∧ l'.map Prod.fst = l.map Prod.fst ∧
        (l'.map Prod.snd).sum = (l.map Prod.snd).sum + 1 := by
  intro l
  induction l with
  | nil => simp
  | cons p t ih =>
    obtain ⟨k, v⟩ := p
    intro hm
    by_cases hk : k = m
    · refine ⟨(k, v + 1) :: t, ?_, by simp, by simp; omega⟩
      simp [bumpKey, hk]
    · have hmt : m ∈ t.map Prod.fst := by
        rcases List.mem_cons.mp hm with h | h
        · exact absurd h.symm hk
        · exact h
      obtain ⟨t', h1, h2, h3⟩ := ih hmt
      refine ⟨(k, v) :: t', ?_, by simp [h2], by simp [h3]; omega⟩
      simp [bumpKey, hk, h1]

/-- Python `yearly_data[year][month] += 1` on a histogram whose key
column is duplicate-free and contains `year`, with `month` a key of the
`year` entry: it succeeds, keeps the year column, and each resulting
entry either is an untouched non-`year` entry or is the `year` entry with
its count sum raised by one. -/
theorem bumpYearMonth_spec (y m : String) :
    ∀ acc : Hist,
      (acc.map Prod.fst).Nodup →
      (∀ p ∈ acc, p.1 = y → m ∈ p.2.map Prod.fst) →
      y ∈ acc.map Prod.fst →
      ∃ acc', bumpYearMonth y (some m) acc = some acc' ∧
        acc'.map Prod.fst = acc.map Prod.fst ∧
        (∀ p' ∈ acc', ∃ p, p ∈ acc ∧ p'.1 = p.1 ∧
          p'.2.map Prod.fst = p.2.map Prod.fst ∧
          ((p.1 ≠ y ∧ p'.2 = p.2) ∨
            (p.1 = y ∧ (p'.2.map Prod.snd).sum = (p.2.map Prod.snd).sum + 1))) := by
  intro acc
  induction acc with
  | nil => simp
  | cons p t ih =>
    obtain ⟨k, inner⟩ := p
    intro hnd hm hy
    by_cases hk : k = y
    · subst hk
      have hmk : m ∈ inner.map Prod.fst := hm (k, inner) (by simp) rfl
      obtain ⟨inner', hb1, hb2, hb3⟩ := bumpKey_spec m inner hmk
      refine ⟨(k, inner') :: t, ?_, by simp [hb2], ?_⟩
      · simp [bumpYearMonth, hb1]
      · intro p' hp'
        rcases List.mem_cons.mp hp' with rfl | hp'
        · exact ⟨(k, inner), by simp, rfl, hb2, Or.inr ⟨rfl, hb3⟩⟩
        · refine ⟨p', List.mem_cons.mpr (Or.inr hp'), rfl, rfl, Or.inl ⟨?_, rfl⟩⟩
          have hknot : k ∉ t.map Prod.fst := by
            have := hnd
            simp only [List.map_cons, List.nodup_cons] at this
            exact this.1
          intro hpy
          exact hknot (hpy ▸ List.mem_map.mpr ⟨p', hp', rfl⟩)
    · have hyt : y ∈ t.map Prod.fst := by
        rcases List.mem_cons.mp hy with h | h
        · exact absurd h.symm hk
        · exact h
      have hndt : (t.map Prod.fst).Nodup := by
        simp only [List.map_cons, List.nodup_cons] at hnd
        exact hnd.2
      obtain ⟨t', h1, h2, h3⟩ :=
        ih hndt (fun q hq hq1 => hm q (List.mem_cons.mpr (Or.inr hq)) hq1) hyt
      refine ⟨(k, inner) :: t', ?_, by simp [h2], ?_⟩
      · simp [bumpYearMonth, hk, h1]
      · intro p' hp'
        rcases List.mem_cons.mp hp' with rfl | hp'
        · exact ⟨(k, inner), by simp, rfl, rfl, Or.inl ⟨hk, rfl⟩⟩
        · obtain ⟨q, hq, hq1, hq2, hq3⟩ := h3 p' hp'
          exact ⟨q, List.mem_cons.mpr (Or.inr hq), hq1, hq2, hq3⟩

/-- A freshly inserted year dict carries exactly the twelve month names. -/
theorem initMonths_keys : initMonths.map Prod.fst = monthNames := by decide

/-- A freshly inserted year dict is zero-filled. -/
theorem initMonths_sum : (initMonths.map Prod.snd).sum = 0 := by decide

/-- Invariant of the `_get_posting_per_year` loop: running the fold from
an accumulator whose year column is duplicate-free, matches the processed
dates, and whose entries are `monthNames`-keyed with sums counting the
processed dates of that year, extends all of that to the remaining
dates. -/
theorem postingFold_spec :
    ∀ (ds processed : List String) (acc : Hist),
      (∀ d ∈ ds, (MONTHS_MAPPING.lookup (pyFirst2 d)).isSome = true) →
      (acc.map Prod.fst).Nodup →
      (∀ z, z ∈ acc.map Prod.fst ↔ z ∈ processed.map pyLast4) →
      (∀ p ∈ acc, p.2.map Prod.fst = monthNames) →
      (∀ p ∈ acc, (p.2.map Prod.snd).sum =
        (processed.filter (fun e => pyLast4 e = p.1)).length) →
      ∃ hist, postingFold ds acc = some hist ∧
        (hist.map Prod.fst).Nodup ∧
        (∀ z, z ∈ hist.map Prod.fst ↔ z ∈ (processed ++ ds).map pyLast4) ∧
        (∀ p ∈ hist, p.2.map Prod.fst = monthNames) ∧
        (∀ p ∈ hist, (p.2.map Prod.snd).sum =
          ((processed ++ ds).filter (fun e => pyLast4 e = p.1)).length) := by
  intro ds
  induction ds with
  | nil =>
    intro processed acc _ h1 h2 h3 h4
    exact ⟨acc, rfl, h1, by simpa using h2, h3, by simpa using h4⟩
  | cons d t ih =>
    intro processed acc hmd hnd hkeys hmn hsum
    obtain ⟨mn, hmn_eq⟩ := Option.isSome_iff_exists.mp (hmd d (by simp))
    have hmn_mem : mn ∈ monthNames := lookup_mem_values _ mn MONTHS_MAPPING hmn_eq
    have hstep : ∃ acc1,
        (if (List.lookup (pyLast4 d) acc).isSome then acc
          else acc ++ [(pyLast4 d, initMonths)]) = acc1 ∧
        (acc1.map Prod.fst).Nodup ∧
        pyLast4 d ∈ acc1.map Prod.fst ∧
        (∀ z, z ∈ acc1.map Prod.fst ↔ z ∈ processed.map pyLast4 ∨ z = pyLast4 d) ∧
        (∀ p ∈ acc1, p.2.map Prod.fst = monthNames) ∧
        (∀ p ∈ acc1, (p.2.map Prod.snd).sum =
          (processed.filter (fun e => pyLast4 e = p.1)).length) := by
      by_cases hy : pyLast4 d ∈ acc.map Prod.fst
      · refine ⟨acc, ?_, hnd, hy, ?_, hmn, hsum⟩
        · rw [if_pos ((lookup_isSome_iff (pyLast4 d) acc).mpr hy)]
        · intro z
          rw [hkeys]
          constructor
          · exact Or.inl
          · rintro (h | rfl)
            · exact h
            · exact (hkeys (pyLast4 d)).mp hy
      · have hnotproc : pyLast4 d ∉ processed.map pyLast4 :=
          fun hc => hy ((hkeys (pyLast4 d)).mpr hc)
        refine ⟨acc ++ [(pyLast4 d, initMonths)], ?_, ?_, by simp, ?_, ?_, ?_⟩
        · have hns : ¬((List.lookup (pyLast4 d) acc).isSome = true) := by
            rw [lookup_isSome_iff]
            exact hy
          rw [if_neg hns]
        · simp only [List.map_append, List.map_cons, List.map_nil]
          rw [List.nodup_append]
          refine ⟨hnd, by simp, ?_⟩
          intro z hz hz2
          rw [List.mem_singleton] at hz2
          exact hy (hz2 ▸ hz)
        · intro z
          simp only [List.map_append, List.map_cons, List.map_nil, List.mem_append,
            List.mem_singleton]
          rw [hkeys]
        · intro p hp
          rcases List.mem_append.mp hp with h | h
          · exact hmn p h
          · rw [List.mem_singleton.mp h]
            exact initMonths_keys
        · intro p hp
          rcases List.mem_append.mp hp with h | h
          · exact hsum p h
          · rw [List.mem_singleton.mp h]
            rw [initMonths_sum]
            have : processed.filter (fun e => pyLast4 e = pyLast4 d) = [] := by
              apply List.filter_eq_nil_iff.mpr
              intro e he
              simp only [decide_eq_true_eq]
              intro hc
              exact hnotproc (hc ▸ List.mem_map.mpr ⟨e, he, rfl⟩)
            rw [this]
            rfl
    obtain ⟨acc1, hacc1_eq, A2, A3, A4, A5, A6⟩ := hstep
    obtain ⟨acc', hbym, hkeys', hrel⟩ := bumpYearMonth_spec (pyLast4 d) mn acc1 A2
      (fun p hp _ => by rw [A5 p hp]; exact hmn_mem) A3
    have hstep_eq : postingStep acc d = some acc' := by
      have hdef : postingStep acc d =
          bumpYearMonth (pyLast4 d) (MONTHS_MAPPING.lookup (pyFirst2 d))
            (if (List.lookup (pyLast4 d) acc).isSome then acc
              else acc ++ [(pyLast4 d, initMonths)]) := rfl
      rw [hdef, hmn_eq, hacc1_eq]
      exact hbym
    have B2 : (acc'.map Prod.fst).Nodup := hkeys' ▸ A2
    have B3 : ∀ z, z ∈ acc'.map Prod.fst ↔ z ∈ ((processed ++ [d]).map pyLast4) := by
      intro z
      rw [hkeys', A4 z]
      simp [eq_comm]
    have B4 : ∀ p ∈ acc', p.2.map Prod.fst = monthNames := by
      intro p hp
      obtain ⟨q, hq, _, hq2, _⟩ := hrel p hp
      rw [hq2]
      exact A5 q hq
    have B5 : ∀ p ∈ acc', (p.2.map Prod.snd).sum =
        ((processed ++ [d]).filter (fun e => pyLast4 e = p.1)).length := by
      intro p hp
      obtain ⟨q, hq, hq1, _, hq3⟩ := hrel p hp
      rw [List.filter_append, List.length_append, hq1]
      rcases hq3 with ⟨hne, heq⟩ | ⟨he, hsum'⟩
      · rw [heq, A6 q hq]
        have hdec : (decide (pyLast4 d = q.1)) = false :=
          decide_eq_false (fun hc => hne hc.symm)
        have hnil : List.filter (fun e => decide (pyLast4 e = q.1)) [d] = [] := by
          simp [List.filter, hdec]
        rw [hnil]
        rfl
      · rw [hsum', A6 q hq, he]
        have hone : List.filter (fun e => pyLast4 e = pyLast4 d) [d] = [d] := by simp
        rw [hone]
        rfl
    obtain ⟨hist, hfold, C1, C2, C3, C4⟩ := ih (processed ++ [d]) acc'
      (fun e he => hmd e (by simp [he])) B2 B3 B4 B5
    refine ⟨hist, ?_, C1, ?_, C3, ?_⟩
    · unfold postingFold
      rw [hstep_eq]
      exact hfold
    · intro z
      rw [C2 z, List.append_assoc, List.singleton_append]
    · intro p hp
      rw [C4 p hp, List.append_assoc, List.singleton_append]

/-- C5: on dates whose two-character prefixes are month keys (the shape
the data model guarantees for `postedOn`), `_get_posting_per_year`
succeeds; its year keys are exactly (and without duplicates) the
4-character suffixes occurring in the dates, every year entry carries all
twelve canonical month keys, each year's twelve counts sum to the number
of dates of that year, and the empty date list produces the empty
histogram. -/
theorem get_posting_per_year_spec (posting_dates : List String)
    (hmd : ∀ d ∈ posting_dates, (MONTHS_MAPPING.lookup (pyFirst2 d)).isSome = true) :
    (∃ hist, get_posting_per_year posting_dates = some hist ∧
      (hist.map Prod.fst).Nodup ∧
      (∀ z, z ∈ hist.map Prod.fst ↔ z ∈ posting_dates.map pyLast4) ∧
      (∀ p ∈ hist, p.2.map Prod.fst = monthNames) ∧
      (∀ p ∈ hist, (p.2.map Prod.snd).sum =
        (posting_dates.filter (fun e => pyLast4 e = p.1)).length)) ∧
    get_posting_per_year [] = some [] := by
  constructor
  · obtain ⟨hist, h1, h2, h3, h4, h5⟩ :=
      postingFold_spec posting_dates [] [] hmd (by simp) (by simp) (by simp) (by simp)
    exact ⟨hist, h1, h2, by simpa using h3, h4, by simpa using h5⟩
  · rfl

/-- Witness for C5 on the repository's own test dates. -/
theorem get_posting_per_year_spec_witness :
    (∃ hist,
      get_posting_per_year ["01/15/2022", "02/20/2022", "03/25/2022"] = some hist ∧
      (hist.map Prod.fst).Nodup ∧
      (∀ z, z ∈ hist.map Prod.fst ↔
        z ∈ ["01/15/2022", "02/20/2022", "03/25/2022"].map pyLast4) ∧
      (∀ p ∈ hist, p.2.map Prod.fst = monthNames) ∧
      (∀ p ∈ hist, (p.2.map Prod.snd).sum =
        (["01/15/2022", "02/20/2022", "03/25/2022"].filter
          (fun e => pyLast4 e = p.1)).length)) ∧
    get_posting_per_year [] = some [] :=
  get_posting_per_year_spec ["01/15/2022", "02/20/2022", "03/25/2022"] (by decide)

/-- Characters of a digit code point are digits. -/
theorem ofNat_digit_isDigit {n : Nat} (h : n ≤ 9) :
    (Char.ofNat (48 + n)).isDigit = true := by
  interval_cases n <;> decide

/-- Characters of a digit code point are not whitespace. -/
theorem ofNat_digit_not_ws {n : Nat} (h : n ≤ 9) :
    (Char.ofNat (48 + n)).isWhitespace = false := by
  interval_cases n <;> decide

/-- Digit value of a digit character round-trips. -/
theorem digitVal_ofNat {n : Nat} (h : n ≤ 9) : digitVal (Char.ofNat (48 + n)) = n := by
  interval_cases n <;> decide

/-- Every character of a two-digit rendering is a digit. -/
theorem pad2_all_digit {d : Nat} (h : d ≤ 99) : ∀ c ∈ pad2 d, c.isDigit = true := by
  intro c hc
  unfold pad2 at hc
  by_cases hd : d < 10
  · rw [if_pos hd] at hc
    rcases List.mem_cons.mp hc with rfl | hc
    · decide
    · rw [List.mem_singleton.mp hc]
      exact ofNat_digit_isDigit (by omega)
  · rw [if_neg hd] at hc
    rcases List.mem_cons.mp hc with rfl | hc
    · exact ofNat_digit_isDigit (by omega)
    · rw [List.mem_singleton.mp hc]
      exact ofNat_digit_isDigit (by omega)

/-- Every character of a four-digit year rendering is a digit. -/
theorem yd4_all_digit {y : Nat} (h : y ≤ 9999) : ∀ c ∈ yd4 y, c.isDigit = true := by
  intro c hc
  unfold yd4 at hc
  rcases List.mem_cons.mp hc with rfl | hc
  · exact ofNat_digit_isDigit (by omega)
  rcases List.mem_cons.mp hc with rfl | hc
  · exact ofNat_digit_isDigit (by omega)
  rcases List.mem_cons.mp hc with rfl | hc
  · exact ofNat_digit_isDigit (by omega)
  · rw [List.mem_singleton.mp hc]
    exact ofNat_digit_isDigit (by omega)

/-- Digits are not `'P'` and not `'J'`. -/
theorem isDigit_ne_PJ {c : Char} (h : c.isDigit = true) : c ≠ 'P' ∧ c ≠ 'J' :=
  ⟨fun he => absurd (he ▸ h) (by decide), fun he => absurd (he ▸ h) (by decide)⟩

/-- Character classification of everything after the month abbreviation
in a rendered date (space, digits, comma). -/
theorem dateTail_chars {d y : Nat} (hd : d ≤ 99) (hy : y ≤ 9999) :
    ∀ c ∈ (' ' :: (pad2 d ++ ',' :: ' ' :: yd4 y)),
      c.isDigit = true ∨ c = ' ' ∨ c = ',' := by
  intro c hc
  rcases List.mem_cons.mp hc with rfl | hc
  · exact Or.inr (Or.inl rfl)
  rcases List.mem_append.mp hc with hc | hc
  · exact Or.inl (pad2_all_digit hd c hc)
  rcases List.mem_cons.mp hc with rfl | hc
  · exact Or.inr (Or.inr rfl)
  rcases List.mem_cons.mp hc with rfl | hc
  · exact Or.inr (Or.inl rfl)
  · exact Or.inl (yd4_all_digit hy c hc)

/-- All such characters are neither `'P'` nor `'J'`. -/
theorem dateTail_no_PJ {d y : Nat} (hd : d ≤ 99) (hy : y ≤ 9999) :
    'P' ∉ (' ' :: (pad2 d ++ ',' :: ' ' :: yd4 y)) ∧
      'J' ∉ (' ' :: (pad2 d ++ ',' :: ' ' :: yd4 y)) := by
  constructor <;> intro hc
  · rcases dateTail_chars hd hy 'P' hc with h | h | h
    · exact absurd h (by decide)
    · exact absurd h (by decide)
    · exact absurd h (by decide)
  · rcases dateTail_chars hd hy 'J' hc with h | h | h
    · exact absurd h (by decide)
    · exact absurd h (by decide)
    · exact absurd h (by decide)

/-- A pattern whose first character is absent from the text never occurs
as a substring. -/
theorem containsSub_head_notMem (p0 : Char) (ps : List Char) :
    ∀ s : List Char, p0 ∉ s → containsSub (p0 :: ps) s = false := by
  intro s
  induction s with
  | nil => intro _; rfl
  | cons c t ih =>
    intro hmem
    have hne : (p0 == c) = false := by
      simp only [beq_eq_false_iff_ne, ne_eq]
      intro he
      exact hmem (he ▸ List.mem_cons_self c t)
    simp [containsSub, leadsWith, hne, ih (fun hc => hmem (List.mem_cons.mpr (Or.inr hc)))]

/-- A list is a prefix of itself followed by anything. -/
theorem leadsWith_append_self : ∀ l r : List Char, leadsWith l (l ++ r) = true := by
  intro l
  induction l with
  | nil => intro r; rfl
  | cons c t ih => intro r; simp [leadsWith, ih r]

/-- Replacing a pattern that does not occur is the identity, regardless
of the fuel. -/
theorem replaceSubAux_no_occur (pat : List Char) :
    ∀ (fuel : Nat) (s : List Char), containsSub pat s = false →
      replaceSubAux pat fuel s = s := by
  intro fuel
  induction fuel with
  | zero =>
    intro s _
    cases s <;> rfl
  | succ f ih =>
    intro s hno
    cases s with
    | nil => rfl
    | cons c t =>
      have hlw : leadsWith pat (c :: t) = false := by
        by_contra hc
        rw [Bool.not_eq_false] at hc
        simp [containsSub, hc] at hno
      have hnt : containsSub pat t = false := by
        by_contra hc
        rw [Bool.not_eq_false] at hc
        simp [containsSub, hc] at hno
      unfold replaceSubAux
      rw [if_neg (by simp [hlw]), ih t hnt]

/-- Replacing a pattern that does not occur is the identity. -/
theorem replaceSub_no_occur (pat s : List Char) (hno : containsSub pat s = false) :
    replaceSub pat s = s := replaceSubAux_no_occur pat s.length s hno

/-- Replacing a non-empty pattern standing at the head of the text, with
no further occurrence, removes exactly that head. -/
theorem replaceSub_cancel_head (p0 : Char) (ps rest : List Char)
    (hno : containsSub (p0 :: ps) rest = false) :
    replaceSub (p0 :: ps) ((p0 :: ps) ++ rest) = rest := by
  unfold replaceSub
  show replaceSubAux (p0 :: ps) ((ps ++ rest).length + 1) (p0 :: (ps ++ rest)) = rest
  unfold replaceSubAux
  rw [if_pos ⟨by simp, leadsWith_append_self (p0 :: ps) rest⟩]
  have hdrop : List.drop ((p0 :: ps).length - 1) (ps ++ rest) = rest := by
    simp
  rw [hdrop]
  exact replaceSubAux_no_occur _ _ _ hno

/-- A prefix occurrence makes the containment test true. -/
theorem containsSub_of_leadsWith (pat : List Char) (c : Char) (t : List Char)
    (h : leadsWith pat (c :: t) = true) : containsSub pat (c :: t) = true := by
  simp [containsSub, h]

/-- The fuel of `natDigitsAux` is irrelevant once it exceeds the number. -/
theorem natDigitsAux_fuel (n : Nat) :
    ∀ f1 f2, n < f1 → n < f2 → natDigitsAux f1 n = natDigitsAux f2 n := by
  induction n using Nat.strong_induction_on with
  | _ n ih =>
    intro f1 f2 h1 h2
    match f1, f2 with
    | a + 1, b + 1 =>
      unfold natDigitsAux
      by_cases hn : n < 10
      · rw [if_pos hn, if_pos hn]
      · rw [if_neg hn, if_neg hn,
          ih (n / 10) (Nat.div_lt_self (by omega) (by omega)) a b (by omega) (by omega)]

/-- Recursive step of the digit rendering on numbers of two or more
digits. -/
theorem natDigitsAux_step (f n : Nat) (h : ¬n < 10) :
    natDigitsAux (f + 1) n = natDigitsAux f (n / 10) ++ [Char.ofNat (48 + n % 10)] := by
  conv_lhs => unfold natDigitsAux
  rw [if_neg h]

/-- Base case of the digit rendering on single-digit numbers. -/
theorem natDigitsAux_base (f n : Nat) (h : n < 10) :
    natDigitsAux (f + 1) n = [Char.ofNat (48 + n)] := by
  conv_lhs => unfold natDigitsAux
  rw [if_pos h]

/-- On a four-digit year, `natDigits` produces exactly the four digit
characters. -/
theorem natDigits_four {y : Nat} (h1 : 1000 ≤ y) (h2 : y ≤ 9999) :
    natDigits y = yd4 y := by
  show natDigitsAux (y + 1) y = yd4 y
  rw [natDigitsAux_step y y (by omega),
    natDigitsAux_fuel (y / 10) y (y / 10 + 1) (by omega) (by omega),
    natDigitsAux_step (y / 10) (y / 10) (by omega),
    show y / 10 / 10 = y / 100 by rw [Nat.div_div_eq_div_mul],
    natDigitsAux_fuel (y / 100) (y / 10) (y / 100 + 1) (by omega) (by omega),
    natDigitsAux_step (y / 100) (y / 100) (by omega),
    show y / 100 / 10 = y / 1000 by rw [Nat.div_div_eq_div_mul],
    natDigitsAux_fuel (y / 1000) (y / 100) (y / 1000 + 1) (by omega) (by omega),
    natDigitsAux_base (y / 1000) (y / 1000) (by omega)]
  simp [yd4]

/-- Two-digit day parsing round-trips on zero-padded days followed by a
non-digit. -/
theorem parseDay_pad2 {d : Nat} (h1 : 1 ≤ d) (h2 : d ≤ 31) (c : Char)
    (rest : List Char) ( _hc : c.isDigit = false) :
    parseDay (pad2 d ++ c :: rest) = some (d, c :: rest) := by
  unfold pad2
  by_cases hd : d < 10
  · rw [if_pos hd]
    have hdig : (Char.ofNat (48 + d)).isDigit = true := ofNat_digit_isDigit (by omega)
    have hval : digitVal (Char.ofNat (48 + d)) = d := digitVal_ofNat (by omega)
    have h0 : digitVal '0' = 0 := rfl
    show parseDay ('0' :: Char.ofNat (48 + d) :: c :: rest) = _
    simp +decide [parseDay, hdig, hval, h0, h1, h2]
  · rw [if_neg hd]
    have hdig1 : (Char.ofNat (48 + d / 10)).isDigit = true := ofNat_digit_isDigit (by omega)
    have hdig2 : (Char.ofNat (48 + d % 10)).isDigit = true := ofNat_digit_isDigit (by omega)
    have hval1 : digitVal (Char.ofNat (48 + d / 10)) = d / 10 := digitVal_ofNat (by omega)
    have hval2 : digitVal (Char.ofNat (48 + d % 10)) = d % 10 := digitVal_ofNat (by omega)
    have hsplit : 10 * (d / 10) + d % 10 = d := by omega
    show parseDay (Char.ofNat (48 + d / 10) :: Char.ofNat (48 + d % 10) :: c :: rest) = _
    simp +decide [parseDay, hdig1, hdig2, hval1, hval2, hsplit, h1, h2]

/-- Four-digit year parsing round-trips. -/
theorem parseYear4_yd4 {y : Nat} (h : y ≤ 9999) : parseYear4End (yd4 y) = some y := by
  have hv1 := digitVal_ofNat (show y / 1000 ≤ 9 by omega)
  have hv2 := digitVal_ofNat (show y / 100 % 10 ≤ 9 by omega)
  have hv3 := digitVal_ofNat (show y / 10 % 10 ≤ 9 by omega)
  have hv4 := digitVal_ofNat (show y % 10 ≤ 9 by omega)
  have hsplit : 1000 * (y / 1000) + 100 * (y / 100 % 10) + 10 * (y / 10 % 10) + y % 10 = y := by
    omega
  unfold yd4
  simp only [parseYear4End]
  rw [if_pos (by simp [ofNat_digit_isDigit (show y / 1000 ≤ 9 by omega),
      ofNat_digit_isDigit (show y / 100 % 10 ≤ 9 by omega),
      ofNat_digit_isDigit (show y / 10 % 10 ≤ 9 by omega),
      ofNat_digit_isDigit (show y % 10 ≤ 9 by omega)])]
  rw [hv1, hv2, hv3, hv4, hsplit]

/-- `matchMonthAux` numbers its result within the abbreviation window. -/
theorem matchMonthAux_bounds :
    ∀ (abbrevs : List (List Char)) (i j : Nat) (s r : List Char),
      matchMonthAux i abbrevs s = some (j, r) → i ≤ j ∧ j < i + abbrevs.length := by
  intro abbrevs
  induction abbrevs with
  | nil => intro i j s r h; exact absurd h (by simp [matchMonthAux])
  | cons a rest ih =>
    intro i j s r h
    unfold matchMonthAux at h
    by_cases hl : leadsWithCI a s = true
    · rw [if_pos hl] at h
      obtain ⟨he, -⟩ := Prod.mk.injEq .. ▸ Option.some.inj h
      subst he
      simp
    · rw [if_neg hl] at h
      have := ih (i + 1) j s r h
      constructor
      · omega
      · simp only [List.length_cons]
        omega

/-- The day returned by the `%d` model is positive. -/
theorem parseDay_pos :
    ∀ (s : List Char) (d : Nat) (r : List Char), parseDay s = some (d, r) → 1 ≤ d := by
  intro s d r h
  match s with
  | [] => exact absurd h (by simp [parseDay])
  | [c1] =>
    simp only [parseDay] at h
    split_ifs at h with h1
    obtain ⟨he, -⟩ := Prod.mk.injEq .. ▸ Option.some.inj h
    simp only [Bool.and_eq_true, decide_eq_true_eq] at h1
    omega
  | c1 :: c2 :: rest =>
    simp only [parseDay] at h
    split_ifs at h with h1 h2 h3
    · obtain ⟨he, -⟩ := Prod.mk.injEq .. ▸ Option.some.inj h
      simp only [decide_eq_true_eq] at h2
      omega
    · obtain ⟨he, -⟩ := Prod.mk.injEq .. ▸ Option.some.inj h
      simp only [Bool.and_eq_true, decide_eq_true_eq] at h3
      omega

/-- Month lengths never exceed 31. -/
theorem daysInMonth_le (m y : Nat) : daysInMonth m y ≤ 31 := by
  unfold daysInMonth
  split_ifs <;> omega

/-- The padded day is never eaten by whitespace skipping. -/
theorem dropWhile_pad2 {d : Nat} (hd : d ≤ 99) (rest : List Char) :
    (pad2 d ++ rest).dropWhile Char.isWhitespace = pad2 d ++ rest := by
  unfold pad2
  by_cases h : d < 10
  · rw [if_pos h]
    simp [List.dropWhile]
  · rw [if_neg h]
    simp [List.dropWhile, ofNat_digit_not_ws (show d / 10 ≤ 9 by omega)]

/-- Stripping `Premiered`/`Joined` from a rendered date — bare or with
one of the two prefixes — leaves exactly the bare date, provided the
month chunk is non-empty, free of `'P'`, does not let `Joined` occur in
the bare date, and does not start with whitespace. -/
theorem stripPJ_clean (mc : List Char) (d y : Nat) (hd : d ≤ 99) (hy : y ≤ 9999)
    (hP : 'P' ∉ mc)
    (hJ : containsSub joinedChars (mc ++ dateTail d y) = false)
    (hhead : ∀ c0 t0, mc = c0 :: t0 → c0.isWhitespace = false)
    (hne : mc ≠ []) (pfx : List Char)
    (hpfx : pfx = [] ∨ pfx = premieredChars ++ [' '] ∨ pfx = joinedChars ++ [' ']) :
    stripPremieredJoined (pfx ++ (mc ++ dateTail d y)) = mc ++ dateTail d y := by
  rcases mc with _ | ⟨c0, t0⟩
  · exact absurd rfl hne
  have hc0 : c0.isWhitespace = false := hhead c0 t0 rfl
  have hPbody : 'P' ∉ (c0 :: t0) ++ dateTail d y := by
    intro hc
    rcases List.mem_append.mp hc with h | h
    · exact hP h
    · exact (dateTail_no_PJ hd hy).1 h
  have hPcont : containsSub premieredChars ((c0 :: t0) ++ dateTail d y) = false :=
    containsSub_head_notMem 'P' _ _ hPbody
  have hPtail : containsSub premieredChars (' ' :: ((c0 :: t0) ++ dateTail d y)) = false := by
    apply containsSub_head_notMem
    intro hc
    rcases List.mem_cons.mp hc with h | h
    · exact absurd h (by decide)
    · exact hPbody h
  have hJtail : containsSub joinedChars (' ' :: ((c0 :: t0) ++ dateTail d y)) = false := by
    show (leadsWith joinedChars (' ' :: ((c0 :: t0) ++ dateTail d y)) ||
      containsSub joinedChars ((c0 :: t0) ++ dateTail d y)) = false
    rw [hJ]
    simp [joinedChars, leadsWith]
  have hbodyDrop : ((c0 :: t0) ++ dateTail d y).dropWhile Char.isWhitespace =
      (c0 :: t0) ++ dateTail d y := by
    simp [List.dropWhile, hc0]
  have hshape : (c0 :: t0) ++ dateTail d y =
      ((c0 :: t0) ++ ' ' :: (pad2 d ++ [',', ' ', Char.ofNat (48 + y / 1000),
        Char.ofNat (48 + y / 100 % 10), Char.ofNat (48 + y / 10 % 10)])) ++
        [Char.ofNat (48 + y % 10)] := by
    simp [dateTail, yd4]
  have hbodyRev : ((c0 :: t0) ++ dateTail d y).reverse.dropWhile Char.isWhitespace =
      ((c0 :: t0) ++ dateTail d y).reverse := by
    rw [hshape, List.reverse_append]
    simp only [List.reverse_cons, List.reverse_nil, List.nil_append, List.singleton_append]
    simp [List.dropWhile, ofNat_digit_not_ws (show y % 10 ≤ 9 by omega)]
  have hstripSpace : pyStrip (' ' :: ((c0 :: t0) ++ dateTail d y)) =
      (c0 :: t0) ++ dateTail d y := by
    unfold pyStrip
    rw [show (' ' :: ((c0 :: t0) ++ dateTail d y)).dropWhile Char.isWhitespace =
        ((c0 :: t0) ++ dateTail d y).dropWhile Char.isWhitespace by simp [List.dropWhile]]
    rw [hbodyDrop, hbodyRev, List.reverse_reverse]
  rcases hpfx with rfl | rfl | rfl
  · rw [List.nil_append]
    unfold stripPremieredJoined
    rw [hPcont, hJ]
    rfl
  · have heq : (premieredChars ++ [' ']) ++ ((c0 :: t0) ++ dateTail d y) =
        premieredChars ++ (' ' :: ((c0 :: t0) ++ dateTail d y)) := by
      simp
    rw [heq]
    unfold stripPremieredJoined
    have hcontP : containsSub premieredChars
        (premieredChars ++ (' ' :: ((c0 :: t0) ++ dateTail d y))) = true := by
      apply containsSub_of_leadsWith
      exact leadsWith_append_self premieredChars _
    rw [hcontP]
    rw [show premieredChars = 'P' :: ['r', 'e', 'm', 'i', 'e', 'r', 'e', 'd'] from rfl] at hPtail ⊢
    rw [replaceSub_cancel_head 'P' ['r', 'e', 'm', 'i', 'e', 'r', 'e', 'd'] _ hPtail]
    rw [replaceSub_no_occur joinedChars _ hJtail]
    simpa using hstripSpace
  · have heq : (joinedChars ++ [' ']) ++ ((c0 :: t0) ++ dateTail d y) =
        joinedChars ++ (' ' :: ((c0 :: t0) ++ dateTail d y)) := by
      simp
    rw [heq]
    unfold stripPremieredJoined
    have hcontJ : containsSub joinedChars
        (joinedChars ++ (' ' :: ((c0 :: t0) ++ dateTail d y))) = true := by
      apply containsSub_of_leadsWith
      exact leadsWith_append_self joinedChars _
    have hPJoined : containsSub premieredChars
        (joinedChars ++ (' ' :: ((c0 :: t0) ++ dateTail d y))) = false := by
      apply containsSub_head_notMem
      intro hc
      rcases List.mem_append.mp hc with h | h
      · exact absurd h (by decide)
      · rcases List.mem_cons.mp h with h | h
        · exact absurd h (by decide)
        · exact hPbody h
    rw [hcontJ, Bool.or_true]
    rw [if_pos rfl]
    rw [replaceSub_no_occur premieredChars _ hPJoined]
    rw [show joinedChars = 'J' :: ['o', 'i', 'n', 'e', 'd'] from rfl] at hJtail ⊢
    rw [replaceSub_cancel_head 'J' ['o', 'i', 'n', 'e', 'd'] _ hJtail]
    exact hstripSpace

/-- After the month abbreviation has matched, the rest of the rendered
date parses back to exactly its components. -/
theorem parseDateCore_render (m d y : Nat)
    (hd1 : 1 ≤ d) (hdm : d ≤ daysInMonth m y) (hy2 : y ≤ 9999)
    (hmatch : matchMonth (monthChars m ++ dateTail d y) = some (m, dateTail d y)) :
    parseDateCore (monthChars m ++ dateTail d y) = some (m, d, y) := by
  have hd31 : d ≤ 31 := le_trans hdm (daysInMonth_le m y)
  have hskip1 : skipWs1 (dateTail d y) = some (pad2 d ++ ',' :: ' ' :: yd4 y) := by
    show skipWs1 (' ' :: (pad2 d ++ ',' :: ' ' :: yd4 y)) = _
    simp only [skipWs1]
    rw [if_pos (by decide), dropWhile_pad2 (by omega)]
  have hday : parseDay (pad2 d ++ ',' :: ' ' :: yd4 y) =
      some (d, ',' :: ' ' :: yd4 y) :=
    parseDay_pad2 hd1 hd31 ',' (' ' :: yd4 y) (by decide)
  have hcomma : expectComma (',' :: ' ' :: yd4 y) = some (' ' :: yd4 y) := by
    simp [expectComma]
  have hskip2 : skipWs1 (' ' :: yd4 y) = some (yd4 y) := by
    simp only [skipWs1]
    rw [if_pos (by decide)]
    congr 1
    show (yd4 y).dropWhile Char.isWhitespace = yd4 y
    simp [yd4, List.dropWhile, ofNat_digit_not_ws (show y / 1000 ≤ 9 by omega)]
  have hyear : parseYear4End (yd4 y) = some y := parseYear4_yd4 hy2
  simp [parseDateCore, hmatch, hskip1, hday, hcomma, hskip2, hyear, hdm]

/-- Soundness of the date conversion: every successful output is a
rendered calendar-valid month/day/year. -/
theorem convert_date_sound :
    ∀ s out : List Char, convert_date s = some out →
      ∃ m d y, 1 ≤ m ∧ m ≤ 12 ∧ 1 ≤ d ∧ d ≤ daysInMonth m y ∧
        out = pad2 m ++ '/' :: (pad2 d ++ '/' :: natDigits y) := by
  intro s out h
  unfold convert_date at h
  obtain ⟨⟨m, d, y⟩, hp, hout⟩ := Option.map_eq_some'.mp h
  rw [parseDateCore] at hp
  rcases h1 : matchMonth (stripPremieredJoined s) with - | ⟨m1, r1⟩ <;> simp only [h1] at hp
  · exact absurd hp (by simp)
  rcases h2 : skipWs1 r1 with - | r2 <;> simp only [h2] at hp
  · exact absurd hp (by simp)
  rcases h3 : parseDay r2 with - | ⟨d1, r3⟩ <;> simp only [h3] at hp
  · exact absurd hp (by simp)
  rcases h4 : expectComma r3 with - | r4 <;> simp only [h4] at hp
  · exact absurd hp (by simp)
  rcases h5 : skipWs1 r4 with - | r5 <;> simp only [h5] at hp
  · exact absurd hp (by simp)
  rcases h6 : parseYear4End r5 with - | y1 <;> simp only [h6] at hp
  · exact absurd hp (by simp)
  split_ifs at hp with hcond
  have htrip := Option.some.inj hp
  simp only [Prod.mk.injEq] at htrip
  obtain ⟨rfl, rfl, rfl⟩ := htrip
  have hb := matchMonthAux_bounds monthAbbrevs 1 m1 _ r1 h1
  exact ⟨m1, d1, y1, by omega, by simp [monthAbbrevs] at hb; omega,
    parseDay_pos r2 d1 r3 h3, hcond, hout ▸ rfl⟩

/-- C8: `_convert_date` on any rendered `"<Month-abbrev> DD, YYYY"` with
a valid calendar day and a four-digit year — bare or prefixed by
`"Premiered "` or `"Joined "` — returns the date rendered as
`MM/DD/YYYY`; the three literal cases of the spec hold; every successful
conversion is of that rendered shape (so inputs not matching the
month-name/day/year grammar are rejected); and the representative
malformed inputs `"Nov 31, 2021"` (day out of range) and `"11/27/2021"`
(no month name) fail with the `ValueError` modelled as `none` (the
spec's `MalformedDateError`). -/
theorem convert_date_spec (m d y : Nat) (pfx : List Char)
    (hm1 : 1 ≤ m) (hm2 : m ≤ 12) (hd1 : 1 ≤ d) (hdm : d ≤ daysInMonth m y)
    (hy1 : 1000 ≤ y) (hy2 : y ≤ 9999)
    (hpfx : pfx = [] ∨ pfx = premieredChars ++ [' '] ∨ pfx = joinedChars ++ [' ']) :
    convert_date (pfx ++ (monthChars m ++ dateTail d y)) =
        some (pad2 m ++ '/' :: (pad2 d ++ '/' :: yd4 y)) ∧
      convert_date "Nov 27, 2021".toList = some "11/27/2021".toList ∧
      convert_date "Premiered Nov 27, 2021".toList = some "11/27/2021".toList ∧
      convert_date "Joined Nov 27, 2021".toList = some "11/27/2021".toList ∧
      (∀ s out : List Char, convert_date s = some out →
        ∃ m2 d2 y2, 1 ≤ m2 ∧ m2 ≤ 12 ∧ 1 ≤ d2 ∧ d2 ≤ daysInMonth m2 y2 ∧
          out = pad2 m2 ++ '/' :: (pad2 d2 ++ '/' :: natDigits y2)) ∧
      convert_date "Nov 31, 2021".toList = none ∧
      convert_date "11/27/2021".toList = none := by
  refine ⟨?_, by decide, by decide, by decide, convert_date_sound, by decide, by decide⟩
  have hd31 : d ≤ 31 := le_trans hdm (daysInMonth_le m y)
  have hmatch : matchMonth (monthChars m ++ dateTail d y) = some (m, dateTail d y) := by
    interval_cases m <;>
      simp +decide [matchMonth, matchMonthAux, monthChars, monthAbbrevs, leadsWithCI]
  have htail : containsSub joinedChars (dateTail d y) = false :=
    containsSub_head_notMem 'J' _ _ (dateTail_no_PJ (by omega) hy2).2
  have htail2 : containsSub joinedChars (pad2 d ++ ',' :: ' ' :: yd4 y) = false :=
    containsSub_head_notMem 'J' _ _
      (fun hc => (dateTail_no_PJ (show d ≤ 99 by omega) hy2).2 (List.mem_cons_of_mem ' ' hc))
  have hJ : containsSub joinedChars (monthChars m ++ dateTail d y) = false := by
    interval_cases m <;>
      simp +decide [monthChars, monthAbbrevs, containsSub, leadsWith, htail, htail2]
  have hP : 'P' ∉ monthChars m := by
    interval_cases m <;> decide
  have hhead : ∀ c0 t0, monthChars m = c0 :: t0 → c0.isWhitespace = false := by
    interval_cases m <;> (intro c0 t0 he; injection he with h1 h2; subst h1; decide)
  have hne : monthChars m ≠ [] := by
    interval_cases m <;> decide
  have hstrip := stripPJ_clean (monthChars m) d y (by omega) hy2 hP hJ hhead hne pfx hpfx
  have hparse := parseDateCore_render m d y hd1 hdm hy2 hmatch
  unfold convert_date
  rw [hstrip, hparse]
  show some (strftimeDate m d y) = _
  unfold strftimeDate
  rw [natDigits_four hy1 hy2]

/-- Witness for C8 at `m = 11`, `d = 27`, `y = 2021` with the
`"Premiered "` prefix (the spec's own literal example). -/
theorem convert_date_spec_witness :
    convert_date ((premieredChars ++ [' ']) ++ (monthChars 11 ++ dateTail 27 2021)) =
        some (pad2 11 ++ '/' :: (pad2 27 ++ '/' :: yd4 2021)) ∧
      convert_date "Nov 27, 2021".toList = some "11/27/2021".toList ∧
      convert_date "Premiered Nov 27, 2021".toList = some "11/27/2021".toList ∧
      convert_date "Joined Nov 27, 2021".toList = some "11/27/2021".toList ∧
      (∀ s out : List Char, convert_date s = some out →
        ∃ m2 d2 y2, 1 ≤ m2 ∧ m2 ≤ 12 ∧ 1 ≤ d2 ∧ d2 ≤ daysInMonth m2 y2 ∧
          out = pad2 m2 ++ '/' :: (pad2 d2 ++ '/' :: natDigits y2)) ∧
      convert_date "Nov 31, 2021".toList = none ∧
      convert_date "11/27/2021".toList = none :=
  convert_date_spec 11 27 2021 (premieredChars ++ [' '])
    (by decide) (by decide) (by decide) (by decide) (by decide) (by decide)
    (Or.inr (Or.inl rfl))

end YouStats
